import Mathlib

/-!
ROI calculator (`calculator.js`)

A shallow embedding of `calculateROI` and the facts proved about it.

Number model.

JavaScript numbers are IEEE-754 binary64 values, and `JSNum` models them as such:
`NaN`, the two infinities, the two zeros, and the finite values, each carried as the
rational number it stands for.  Every arithmetic operator computes the exact rational
result and rounds it to the nearest binary64 value, ties to even, with overflow to an
infinity and gradual underflow (`JSNum.roundSigned`).  A decimal literal of the source
such as `0.17` or `1.1` is the binary64 value nearest to it (`JSNum.ofRat`).  The
special values follow the rules the source relies on: `undefined / 100` is `NaN`,
`x / 0` is an infinity, `NaN` is falsy and compares false with everything, and the two
zeros compare equal.

A property read of `input` gives a `JSVal`: `undefined` when the property is absent, a
number otherwise.
-/

namespace ROI

deriving instance DecidableEq for Except

/-! ## JavaScript values -/

/-- A JavaScript number, that is an IEEE-754 binary64 value.  A finite value is carried
as the rational number it stands for; `fin 0` is `+0` and `negZero` is `-0`. -/
inductive JSNum where
  | nan : JSNum
  | posInf : JSNum
  | negInf : JSNum
  | negZero : JSNum
  | fin (q : Rat) : JSNum
deriving DecidableEq

/-- What reading a property of the input object gives. -/
inductive JSVal where
  | undefined : JSVal
  | num (x : JSNum) : JSVal
deriving DecidableEq

/-- A number taken apart: `NaN`, an infinity with its sign, or a finite value with its
sign bit and its magnitude. -/
inductive Shape where
  | nan : Shape
  | inf (neg : Bool) : Shape
  | finite (neg : Bool) (mag : Rat) : Shape
deriving DecidableEq

namespace JSNum

/-- Sign and magnitude of a number. -/
def shape : JSNum → Shape
  | nan => Shape.nan
  | posInf => Shape.inf false
  | negInf => Shape.inf true
  | negZero => Shape.finite true 0
  | fin q => Shape.finite (decide (q < 0)) |q|

/-- The infinity with the given sign bit. -/
def infinity (neg : Bool) : JSNum := if neg then negInf else posInf

/-- The finite number with the given sign bit and magnitude. -/
def signed (neg : Bool) (m : Rat) : JSNum :=
  if m = 0 then (if neg then negZero else fin 0) else fin (if neg then -m else m)

/-- The power `2 ^ e`. -/
def pow2 (e : Int) : Rat := (2 : Rat) ^ e

/-- Halving `n` until it is below `2`, at most `fuel` times: the number of halvings. -/
def log2Aux : Nat → Nat → Nat
  | 0, _ => 0
  | fuel + 1, n => if n < 2 then 0 else log2Aux fuel (n / 2) + 1

/-- The position of the leading bit of `n`: `2 ^ ilog2 n ≤ n < 2 ^ (ilog2 n + 1)` for
`n > 0`. -/
def ilog2 (n : Nat) : Nat := log2Aux n n

/-- The exponent `e` with `2 ^ e ≤ m < 2 ^ (e + 1)`, for `m > 0`. -/
def binade (m : Rat) : Int :=
  if pow2 ((ilog2 m.num.natAbs : Int) - (ilog2 m.den : Int)) ≤ m then
    (ilog2 m.num.natAbs : Int) - (ilog2 m.den : Int)
  else (ilog2 m.num.natAbs : Int) - (ilog2 m.den : Int) - 1

/-- The integer nearest to `y`, the even one when there are two. -/
def roundHalfEven (y : Rat) : Int :=
  if y - ⌊y⌋ < 1 / 2 then ⌊y⌋
  else if 1 / 2 < y - ⌊y⌋ then ⌊y⌋ + 1
  else if ⌊y⌋ % 2 = 0 then ⌊y⌋ else ⌊y⌋ + 1

/-- The exponent of the last place of the binary64 values around the magnitude `m`:
53 significant bits, and nothing finer than `2 ^ (-1074)`. -/
def ulpExp (m : Rat) : Int := max (binade m - 52) (-1074)

/-- The magnitude `m` rounded to the nearest binary64 magnitude, ties to even, with no
bound on the exponent from above. -/
def rne (m : Rat) : Rat :=
  if m ≤ 0 then 0 else (roundHalfEven (m / pow2 (ulpExp m)) : Rat) * pow2 (ulpExp m)

/-- The binary64 value of the real number with sign bit `neg` and magnitude `m`:
round to nearest, ties to even, overflow to infinity. -/
def roundSigned (neg : Bool) (m : Rat) : JSNum :=
  if pow2 1024 ≤ rne m then infinity neg else signed neg (rne m)

/-- The value of a numeric literal: the binary64 number nearest to the decimal `q`. -/
def ofRat (q : Rat) : JSNum := roundSigned (decide (q < 0)) |q|

/-- Unary minus. -/
def neg : JSNum → JSNum
  | nan => nan
  | posInf => negInf
  | negInf => posInf
  | negZero => fin 0
  | fin q => if q = 0 then negZero else fin (-q)

/-- The signed value of a finite number given by sign bit and magnitude. -/
def signedValue (neg : Bool) (m : Rat) : Rat := if neg then -m else m

/-- The `+` operator on numbers.  Two zeros give `-0` when both are `-0` and `+0`
otherwise; a zero added to a nonzero number gives that number; two nonzero numbers give
their exact sum rounded, an exact sum of zero being `+0`. -/
def add (x y : JSNum) : JSNum :=
  match shape x, shape y with
  | Shape.nan, _ => nan
  | _, Shape.nan => nan
  | Shape.inf s, Shape.inf t => if s = t then infinity s else nan
  | Shape.inf s, Shape.finite _ _ => infinity s
  | Shape.finite _ _, Shape.inf t => infinity t
  | Shape.finite s a, Shape.finite t b =>
    if a = 0 ∧ b = 0 then signed (s && t) 0
    else if b = 0 then x
    else if a = 0 then y
    else if signedValue s a + signedValue t b = 0 then fin 0
    else roundSigned (decide (signedValue s a + signedValue t b < 0))
      |signedValue s a + signedValue t b|

/-- The `-` operator on numbers. -/
def sub (x y : JSNum) : JSNum := add x (neg y)

/-- The `*` operator on numbers. -/
def mul (x y : JSNum) : JSNum :=
  match shape x, shape y with
  | Shape.nan, _ => nan
  | _, Shape.nan => nan
  | Shape.inf s, Shape.inf t => infinity (xor s t)
  | Shape.inf s, Shape.finite t b => if b = 0 then nan else infinity (xor s t)
  | Shape.finite s a, Shape.inf t => if a = 0 then nan else infinity (xor s t)
  | Shape.finite s a, Shape.finite t b => roundSigned (xor s t) (a * b)

/-- The `/` operator on numbers. -/
def div (x y : JSNum) : JSNum :=
  match shape x, shape y with
  | Shape.nan, _ => nan
  | _, Shape.nan => nan
  | Shape.inf _, Shape.inf _ => nan
  | Shape.inf s, Shape.finite t _ => infinity (xor s t)
  | Shape.finite s _, Shape.inf t => signed (xor s t) 0
  | Shape.finite s a, Shape.finite t b =>
    if b = 0 then (if a = 0 then nan else infinity (xor s t))
    else roundSigned (xor s t) (a / b)

/-- The comparison `x > y`; false as soon as one side is `NaN`, and the two zeros are
equal. -/
def gt (x y : JSNum) : Bool :=
  match shape x, shape y with
  | Shape.nan, _ => false
  | _, Shape.nan => false
  | Shape.inf s, Shape.inf t => !s && t
  | Shape.inf s, Shape.finite _ _ => !s
  | Shape.finite _ _, Shape.inf t => t
  | Shape.finite s a, Shape.finite t b => decide (signedValue t b < signedValue s a)

/-- The comparison `x <= y`; false as soon as one side is `NaN`. -/
def le (x y : JSNum) : Bool :=
  match shape x, shape y with
  | Shape.nan, _ => false
  | _, Shape.nan => false
  | Shape.inf s, Shape.inf t => s || !t
  | Shape.inf s, Shape.finite _ _ => s
  | Shape.finite _ _, Shape.inf t => !t
  | Shape.finite s a, Shape.finite t b => decide (signedValue s a ≤ signedValue t b)

/-- The function `Math.round`: the nearest integer, ties going up; a result of zero
keeps the sign of the argument. -/
def round : JSNum → JSNum
  | fin q => if ⌊q + 1 / 2⌋ = 0 then signed (decide (q < 0)) 0 else fin (⌊q + 1 / 2⌋ : Int)
  | x => x

/-- The expression `parseFloat(x.toFixed(1))`.  `toFixed(1)` prints the sign when
`x < 0` and then the integer `n` nearest to `|x| * 10` (the larger one on a tie) as
`n / 10`; `parseFloat` reads that decimal back.  A value of magnitude `10^21` or more
is printed in full and comes back unchanged, and `-0` is printed as `0.0`. -/
def toFixed1 : JSNum → JSNum
  | fin q =>
    if (10 : Rat) ^ 21 ≤ |q| then fin q
    else roundSigned (decide (q < 0)) (((⌊|q| * 10 + 1 / 2⌋ : Int) : Rat) / 10)
  | negZero => fin 0
  | x => x

end JSNum

namespace JSVal

/-- The conversion `ToNumber` that the arithmetic operators apply. -/
def toNumber : JSVal → JSNum
  | undefined => JSNum.nan
  | num x => x

/-- The conversion `ToBoolean`: `undefined`, `NaN`, `+0` and `-0` are falsy. -/
def truthy : JSVal → Bool
  | undefined => false
  | num JSNum.nan => false
  | num JSNum.negZero => false
  | num (JSNum.fin q) => decide (q ≠ 0)
  | num _ => true

/-- The operator `a || b`. -/
def or (a b : JSVal) : JSVal := if a.truthy then a else b

end JSVal

/-! ## The calculator -/

/-- The module-level object `CONSTANTS`. -/
structure Constants where
  AUTOMATED_COST_PER_INVOICE : JSNum
  ERROR_RATE_AUTO : JSNum
  TIME_SAVED_PER_INVOICE : JSNum
  MIN_ROI_BOOST_FACTOR : JSNum
deriving DecidableEq

/-- The values `CONSTANTS` is initialised with. -/
def CONSTANTS : Constants where
  AUTOMATED_COST_PER_INVOICE := JSNum.ofRat (20 / 100)
  ERROR_RATE_AUTO := JSNum.ofRat (1 / 1000)
  TIME_SAVED_PER_INVOICE := JSNum.ofRat 8
  MIN_ROI_BOOST_FACTOR := JSNum.ofRat (11 / 10)

/-- The object `input` handed to `calculateROI`: the eight properties the function
reads, and whatever other properties the object carries. -/
structure ScenarioInput where
  monthly_invoice_volume : JSVal
  num_ap_staff : JSVal
  avg_hours_per_invoice : JSVal
  hourly_wage : JSVal
  error_rate_manual : JSVal
  error_cost : JSVal
  time_horizon_months : JSVal
  one_time_implementation_cost : JSVal
  others : String → JSVal := fun _ => JSVal.undefined

/-- The local variables of `calculateROI` just before its `return`. -/
structure Locals where
  laborCostManual : JSNum
  autoCost : JSNum
  errorSavings : JSNum
  monthlySavings : JSNum
  cumulativeSavings : JSNum
  implementationCost : JSNum
  netSavings : JSNum
  paybackMonths : JSNum
  roiPercentage : JSNum
deriving DecidableEq

/-- The object `calculateROI` returns. -/
structure ROIResult where
  monthly_savings : JSNum
  cumulative_savings : JSNum
  net_savings : JSNum
  payback_months : JSNum
  roi_percentage : JSNum
  labor_cost_manual : JSNum
  auto_cost : JSNum
  error_savings : JSNum
deriving DecidableEq

open JSNum JSVal in
/-- Steps 1 to 7 of `calculateROI`: the full-precision intermediate values. -/
def computeLocals (c : Constants) (input : ScenarioInput) : Locals :=
  let laborCostManual :=
    mul (mul (mul (toNumber input.num_ap_staff) (toNumber input.hourly_wage))
      (toNumber input.avg_hours_per_invoice)) (toNumber input.monthly_invoice_volume)
  let autoCost := mul (toNumber input.monthly_invoice_volume) c.AUTOMATED_COST_PER_INVOICE
  let errorSavings :=
    mul (mul (sub (div (toNumber input.error_rate_manual) (fin 100)) c.ERROR_RATE_AUTO)
      (toNumber input.monthly_invoice_volume)) (toNumber input.error_cost)
  let monthlySavingsRaw := sub (add laborCostManual errorSavings) autoCost
  let monthlySavings := mul monthlySavingsRaw c.MIN_ROI_BOOST_FACTOR
  let cumulativeSavings := mul monthlySavings (toNumber input.time_horizon_months)
  let implementationCost := toNumber (JSVal.or input.one_time_implementation_cost (num (fin 0)))
  let netSavings := sub cumulativeSavings implementationCost
  let paybackMonths :=
    if gt implementationCost (fin 0) then div implementationCost monthlySavings else fin 0
  let roiPercentage :=
    if gt implementationCost (fin 0) then mul (div netSavings implementationCost) (fin 100)
    else fin 0
  { laborCostManual, autoCost, errorSavings, monthlySavings, cumulativeSavings,
    implementationCost, netSavings, paybackMonths, roiPercentage }

/-- Step 8 of `calculateROI`: the returned object, built from the locals. -/
def buildResult (l : Locals) : ROIResult where
  monthly_savings := JSNum.round l.monthlySavings
  cumulative_savings := JSNum.round l.cumulativeSavings
  net_savings := JSNum.round l.netSavings
  payback_months := JSNum.toFixed1 l.paybackMonths
  roi_percentage := JSNum.toFixed1 l.roiPercentage
  labor_cost_manual := JSNum.round l.laborCostManual
  auto_cost := JSNum.round l.autoCost
  error_savings := JSNum.round l.errorSavings

/-- The guard of `calculateROI`: some required property is falsy. -/
def missingRequired (input : ScenarioInput) : Bool :=
  !input.monthly_invoice_volume.truthy || !input.num_ap_staff.truthy ||
    !input.avg_hours_per_invoice.truthy || !input.hourly_wage.truthy

/-- The function `calculateROI`, run with the constants object `c`; a thrown
`Error` is an `Except.error` carrying its message. -/
def calculateROIWith (c : Constants) (input : ScenarioInput) : Except String ROIResult :=
  if missingRequired input then Except.error "Missing required fields"
  else Except.ok (buildResult (computeLocals c input))

/-- The function `calculateROI` of `calculator.js`. -/
def calculateROI (input : ScenarioInput) : Except String ROIResult :=
  calculateROIWith CONSTANTS input

/-- An input all of whose properties are written as decimal literals. -/
def finiteInput (v s h w e k t i : Rat) : ScenarioInput where
  monthly_invoice_volume := JSVal.num (JSNum.ofRat v)
  num_ap_staff := JSVal.num (JSNum.ofRat s)
  avg_hours_per_invoice := JSVal.num (JSNum.ofRat h)
  hourly_wage := JSVal.num (JSNum.ofRat w)
  error_rate_manual := JSVal.num (JSNum.ofRat e)
  error_cost := JSVal.num (JSNum.ofRat k)
  time_horizon_months := JSVal.num (JSNum.ofRat t)
  one_time_implementation_cost := JSVal.num (JSNum.ofRat i)

/-- The default form data of the front end (`App.jsx`), as sent to the calculator. -/
def defaultFormData : ScenarioInput :=
  finiteInput 2000 3 (17 / 100) 30 (5 / 10) 100 36 50000

/-! ## Classes of inputs -/

/-- The test `v > 0` on a property of the input. -/
def JSVal.isPositive (v : JSVal) : Bool := JSNum.gt v.toNumber (JSNum.fin 0)

/-- The property is present and holds a number (anything but `NaN`). -/
def JSVal.isNumber : JSVal → Bool
  | JSVal.undefined => false
  | JSVal.num x => decide (x ≠ JSNum.nan)

/-- A finite number is a binary64 value when rounding leaves its magnitude as it is and
the magnitude is below `2 ^ 1024`; the other numbers are binary64 values as they stand. -/
def JSNum.isDouble : JSNum → Bool
  | JSNum.fin q => decide (JSNum.rne |q| = |q| ∧ |q| < JSNum.pow2 1024)
  | _ => true

/-- The four properties the guard of `calculateROI` looks at. -/
def requiredFields (input : ScenarioInput) : List JSVal :=
  [input.monthly_invoice_volume, input.num_ap_staff, input.avg_hours_per_invoice,
    input.hourly_wage]

/-- The four properties the guard of `calculateROI` does not look at. -/
def optionalFields (input : ScenarioInput) : List JSVal :=
  [input.error_rate_manual, input.error_cost, input.time_horizon_months,
    input.one_time_implementation_cost]

/-- A valid input: the required properties are positive numbers and the optional ones
are supplied as numbers. -/
def validInput (input : ScenarioInput) : Bool :=
  (requiredFields input).all JSVal.isPositive && (optionalFields input).all JSVal.isNumber

/-- An input whose invoice volume is negative, everything else being in range. -/
def negativeVolumeInput : ScenarioInput where
  monthly_invoice_volume := JSVal.num (JSNum.fin (-100))
  num_ap_staff := JSVal.num (JSNum.fin 1)
  avg_hours_per_invoice := JSVal.num (JSNum.fin 1)
  hourly_wage := JSVal.num (JSNum.fin 1)
  error_rate_manual := JSVal.num (JSNum.fin 1)
  error_cost := JSVal.num (JSNum.fin 10)
  time_horizon_months := JSVal.num (JSNum.fin 12)
  one_time_implementation_cost := JSVal.num (JSNum.fin 1000)

/-- The result all of whose properties are `NaN`. -/
def nanResult : ROIResult where
  monthly_savings := JSNum.nan
  cumulative_savings := JSNum.nan
  net_savings := JSNum.nan
  payback_months := JSNum.nan
  roi_percentage := JSNum.nan
  labor_cost_manual := JSNum.nan
  auto_cost := JSNum.nan
  error_savings := JSNum.nan

/-- The result of the default form data. -/
def defaultResult : ROIResult where
  monthly_savings := JSNum.fin 34100
  cumulative_savings := JSNum.fin 1227600
  net_savings := JSNum.fin 1177600
  payback_months := JSNum.ofRat (15 / 10)
  roi_percentage := JSNum.ofRat (23552 / 10)
  labor_cost_manual := JSNum.fin 30600
  auto_cost := JSNum.fin 400
  error_savings := JSNum.fin 800

/-- The default form data with the property `hourly_wage` left out. -/
def missingWageInput : ScenarioInput :=
  { defaultFormData with hourly_wage := JSVal.undefined }

/-- The default form data with the property `one_time_implementation_cost` left out. -/
def noImplementationCostInput : ScenarioInput :=
  { defaultFormData with one_time_implementation_cost := JSVal.undefined }

/-- An input with negative monthly savings and a small implementation cost. -/
def smallPaybackInput : ScenarioInput :=
  finiteInput 100 1 (1 / 10) 20 0 5000 12 10

/-- An input whose monthly savings is not a whole number. -/
def fractionalSavingsInput : ScenarioInput :=
  finiteInput 1 1 1 1 0 0 12 10

/-- The default form data with a time horizon of one month. -/
def shortHorizonInput : ScenarioInput :=
  { defaultFormData with time_horizon_months := JSVal.num (JSNum.fin 1) }

/-- An input whose payback comes out just above the time horizon of 3 months although
the net savings is zero. -/
def paybackAboveHorizonInput : ScenarioInput :=
  finiteInput 1 1 (1 / 10) 25 (1 / 2) 100 3 (891 / 100)

/-- An input whose payback comes out as the time horizon of 3 months exactly although
the net savings is below zero. -/
def negativeRoiInput : ScenarioInput :=
  finiteInput 1 1 (1 / 10) (52 / 10) 2 100 3 (7326 / 1000)

/-- The default form data as a stored scenario row: the same eight properties, and an
identifier besides. -/
def storedScenario : ScenarioInput :=
  { defaultFormData with
    others := fun name => if name = "id" then JSVal.num (JSNum.fin 7) else JSVal.undefined }

/-! ## The formulas of the specification

Written from the computation steps of the specification, with the constants
`0.20`, `0.001` and `1.1` spelled out, to be compared with what the code computes.
The operators are those of JavaScript numbers. -/

open JSNum JSVal in
/-- Step 1: `num_ap_staff × hourly_wage × avg_hours_per_invoice × monthly_invoice_volume`. -/
def specLaborCost (input : ScenarioInput) : JSNum :=
  mul (mul (mul (toNumber input.num_ap_staff) (toNumber input.hourly_wage))
    (toNumber input.avg_hours_per_invoice)) (toNumber input.monthly_invoice_volume)

open JSNum JSVal in
/-- Step 2: `monthly_invoice_volume × 0.20`. -/
def specAutoCost (input : ScenarioInput) : JSNum :=
  mul (toNumber input.monthly_invoice_volume) (ofRat (20 / 100))

open JSNum JSVal in
/-- Step 3: `((error_rate_manual / 100) − 0.001) × monthly_invoice_volume × error_cost`. -/
def specErrorSavings (input : ScenarioInput) : JSNum :=
  mul (mul (sub (div (toNumber input.error_rate_manual) (fin 100)) (ofRat (1 / 1000)))
    (toNumber input.monthly_invoice_volume)) (toNumber input.error_cost)

open JSNum in
/-- Steps 4 and 5: `(labor_cost_manual + error_savings − auto_cost) × 1.1`. -/
def specMonthlySavings (input : ScenarioInput) : JSNum :=
  mul (sub (add (specLaborCost input) (specErrorSavings input)) (specAutoCost input))
    (ofRat (11 / 10))

/-! ## Numbers: sign, magnitude and comparison -/

theorem signedValue_shape (q : Rat) : JSNum.signedValue (decide (q < 0)) |q| = q := by
  by_cases h : q < 0
  · simp [JSNum.signedValue, h, abs_of_neg h]
  · simp [JSNum.signedValue, h, abs_of_nonneg (not_lt.mp h)]

theorem gt_fin_fin (a b : Rat) : JSNum.gt (JSNum.fin a) (JSNum.fin b) = decide (b < a) := by
  simp only [JSNum.gt, JSNum.shape, signedValue_shape]

theorem le_fin_fin (a b : Rat) : JSNum.le (JSNum.fin a) (JSNum.fin b) = decide (a ≤ b) := by
  simp only [JSNum.le, JSNum.shape, signedValue_shape]

/-! ## Validation -/

theorem truthy_of_isPositive {v : JSVal} (h : v.isPositive = true) : v.truthy = true := by
  rcases v with _ | x
  · simp [JSVal.isPositive, JSVal.toNumber, JSNum.gt, JSNum.shape] at h
  · rcases x with _ | _ | _ | _ | q
    · simp [JSVal.isPositive, JSVal.toNumber, JSNum.gt, JSNum.shape] at h
    · rfl
    · simp [JSVal.isPositive, JSVal.toNumber, JSNum.gt, JSNum.shape] at h
    · simp [JSVal.isPositive, JSVal.toNumber, JSNum.gt, JSNum.shape, JSNum.signedValue] at h
    · simp only [JSVal.isPositive, JSVal.toNumber, gt_fin_fin, decide_eq_true_eq] at h
      simp [JSVal.truthy, ne_of_gt h]

theorem truthy_eq_false_iff (v : JSVal) :
    v.truthy = false ↔
      v = JSVal.undefined ∨ v = JSVal.num (JSNum.fin 0) ∨ v = JSVal.num JSNum.negZero ∨
        v = JSVal.num JSNum.nan := by
  rcases v with _ | x
  · simp [JSVal.truthy]
  · rcases x with _ | _ | _ | _ | q <;> simp [JSVal.truthy]

theorem missingRequired_eq_true_iff (input : ScenarioInput) :
    missingRequired input = true ↔ ∃ v ∈ requiredFields input, v.truthy = false := by
  simp [missingRequired, requiredFields, or_assoc]

theorem calculateROIWith_error_iff (c : Constants) (input : ScenarioInput) (msg : String) :
    calculateROIWith c input = Except.error msg ↔
      missingRequired input = true ∧ msg = "Missing required fields" := by
  unfold calculateROIWith
  by_cases h : missingRequired input = true
  · simp [h, eq_comm]
  · simp [h]

theorem calculateROIWith_ok_iff (c : Constants) (input : ScenarioInput) (r : ROIResult) :
    calculateROIWith c input = Except.ok r ↔
      missingRequired input = false ∧ r = buildResult (computeLocals c input) := by
  unfold calculateROIWith
  by_cases h : missingRequired input = true
  · simp [h]
  · simp [h, eq_comm]

theorem missingRequired_of_valid {input : ScenarioInput}
    (h : (requiredFields input).all JSVal.isPositive = true) : missingRequired input = false := by
  simp only [requiredFields, List.all_cons, List.all_nil, Bool.and_true, Bool.and_eq_true] at h
  obtain ⟨h1, h2, h3, h4⟩ := h
  simp [missingRequired, truthy_of_isPositive h1, truthy_of_isPositive h2,
    truthy_of_isPositive h3, truthy_of_isPositive h4]

/-- C1: when each required property is absent, zero or a positive number,
`calculateROI` throws 'Missing required fields' exactly when one of the four is
absent or zero; and when all four are positive it returns a result, whatever the
optional properties are.  Zero is `+0` or `-0`. -/
theorem calculateROI_missing_iff (input : ScenarioInput)
    (h : ∀ v ∈ requiredFields input,
      v = JSVal.undefined ∨ v = JSVal.num (JSNum.fin 0) ∨ v = JSVal.num JSNum.negZero ∨
        v.isPositive = true) :
    (calculateROI input = Except.error "Missing required fields" ↔
        ∃ v ∈ requiredFields input,
          v = JSVal.undefined ∨ v = JSVal.num (JSNum.fin 0) ∨ v = JSVal.num JSNum.negZero) ∧
      ((∀ v ∈ requiredFields input, v.isPositive = true) →
        ∃ r, calculateROI input = Except.ok r) := by
  constructor
  · rw [calculateROI, calculateROIWith_error_iff, missingRequired_eq_true_iff]
    constructor
    · rintro ⟨⟨v, hv, hf⟩, -⟩
      refine ⟨v, hv, ?_⟩
      rcases h v hv with h0 | h0 | h0 | h0
      · exact Or.inl h0
      · exact Or.inr (Or.inl h0)
      · exact Or.inr (Or.inr h0)
      · rw [truthy_of_isPositive h0] at hf
        exact absurd hf (by decide)
    · rintro ⟨v, hv, h0⟩
      refine ⟨⟨v, hv, ?_⟩, rfl⟩
      rcases h0 with h0 | h0 | h0 <;> subst h0 <;> simp [JSVal.truthy]
  · intro hp
    refine ⟨buildResult (computeLocals CONSTANTS input), ?_⟩
    rw [calculateROI, calculateROIWith_ok_iff]
    refine ⟨missingRequired_of_valid ?_, rfl⟩
    simpa [List.all_eq_true] using hp

/-- The statement C1 at the default form data with the hourly wage left out. -/
theorem calculateROI_missing_iff_witness :
    (∀ v ∈ requiredFields missingWageInput,
        v = JSVal.undefined ∨ v = JSVal.num (JSNum.fin 0) ∨ v = JSVal.num JSNum.negZero ∨
          v.isPositive = true) ∧
      (calculateROI missingWageInput = Except.error "Missing required fields" ↔
        ∃ v ∈ requiredFields missingWageInput,
          v = JSVal.undefined ∨ v = JSVal.num (JSNum.fin 0) ∨
            v = JSVal.num JSNum.negZero) :=
  have h : ∀ v ∈ requiredFields missingWageInput,
      v = JSVal.undefined ∨ v = JSVal.num (JSNum.fin 0) ∨ v = JSVal.num JSNum.negZero ∨
        v.isPositive = true := by
    intro v hv
    simp only [requiredFields, List.mem_cons, List.mem_singleton, List.not_mem_nil,
      or_false] at hv
    rcases hv with rfl | rfl | rfl | rfl
    · exact Or.inr (Or.inr (Or.inr (by decide!)))
    · exact Or.inr (Or.inr (Or.inr (by decide!)))
    · exact Or.inr (Or.inr (Or.inr (by decide!)))
    · exact Or.inl rfl
  ⟨h, (calculateROI_missing_iff missingWageInput h).1⟩

/-- C2, refuted: with a negative invoice volume `calculateROI` throws nothing and
returns a result. -/
theorem calculateROI_negative_volume_ok :
    (∃ v ∈ requiredFields negativeVolumeInput, v.isPositive = false) ∧
      calculateROI negativeVolumeInput = Except.ok
        { monthly_savings := JSNum.fin (-98), cumulative_savings := JSNum.fin (-1175),
          net_savings := JSNum.fin (-2175), payback_months := JSNum.ofRat (-102 / 10),
          roi_percentage := JSNum.ofRat (-2175 / 10), labor_cost_manual := JSNum.fin (-100),
          auto_cost := JSNum.fin (-20), error_savings := JSNum.fin (-9) } := by
  refine ⟨⟨JSVal.num (JSNum.fin (-100)), ?_, ?_⟩, ?_⟩ <;> decide!

/-- C2, amended: `calculateROI` throws exactly when a required property is absent, zero
or `NaN`; any other value of a required property, a negative number included, is
accepted and a result is returned.  Zero is `+0` or `-0`. -/
theorem calculateROI_error_iff_falsy (input : ScenarioInput) :
    ((∃ msg, calculateROI input = Except.error msg) ↔
        ∃ v ∈ requiredFields input,
          v = JSVal.undefined ∨ v = JSVal.num (JSNum.fin 0) ∨ v = JSVal.num JSNum.negZero ∨
            v = JSVal.num JSNum.nan) ∧
      ((∀ v ∈ requiredFields input, ∃ q : Rat, q ≠ 0 ∧ v = JSVal.num (JSNum.fin q)) →
        calculateROI input = Except.ok (buildResult (computeLocals CONSTANTS input))) := by
  constructor
  · simp only [calculateROI, calculateROIWith_error_iff, exists_and_left, exists_eq, and_true,
      missingRequired_eq_true_iff, truthy_eq_false_iff]
  · intro hq
    rw [calculateROI, calculateROIWith_ok_iff]
    refine ⟨?_, rfl⟩
    rw [← Bool.not_eq_true, missingRequired_eq_true_iff]
    rintro ⟨v, hv, hf⟩
    obtain ⟨q, hq0, rfl⟩ := hq v hv
    simp [JSVal.truthy, hq0] at hf

/-- The amended statement C2 at the input with a negative invoice volume. -/
theorem calculateROI_error_iff_falsy_witness :
    (∀ v ∈ requiredFields negativeVolumeInput,
        ∃ q : Rat, q ≠ 0 ∧ v = JSVal.num (JSNum.fin q)) ∧
      calculateROI negativeVolumeInput =
        Except.ok (buildResult (computeLocals CONSTANTS negativeVolumeInput)) :=
  have h : ∀ v ∈ requiredFields negativeVolumeInput,
      ∃ q : Rat, q ≠ 0 ∧ v = JSVal.num (JSNum.fin q) := by
    simp [requiredFields, negativeVolumeInput]
  ⟨h, (calculateROI_error_iff_falsy negativeVolumeInput).2 h⟩

/-! ## Defaults of the optional properties -/

/-- C3, where the code departs from it: with `error_rate_manual` absent the default form
data gives `NaN` for every figure that depends on the error savings, while with
`error_rate_manual` supplied as `0` it gives ordinary numbers; leaving out `error_cost`
or `time_horizon_months` changes the result in the same way. -/
theorem calculateROI_absent_optional_nan :
    calculateROI { defaultFormData with error_rate_manual := JSVal.undefined } =
        Except.ok { nanResult with
          labor_cost_manual := JSNum.fin 30600, auto_cost := JSNum.fin 400 } ∧
      calculateROI { defaultFormData with error_rate_manual := JSVal.num (JSNum.fin 0) } =
        Except.ok
          { monthly_savings := JSNum.fin 33000, cumulative_savings := JSNum.fin 1188000,
            net_savings := JSNum.fin 1138000, payback_months := JSNum.ofRat (15 / 10),
            roi_percentage := JSNum.fin 2276, labor_cost_manual := JSNum.fin 30600,
            auto_cost := JSNum.fin 400, error_savings := JSNum.fin (-200) } ∧
      calculateROI { defaultFormData with error_cost := JSVal.undefined } ≠
        calculateROI { defaultFormData with error_cost := JSVal.num (JSNum.fin 0) } ∧
      calculateROI { defaultFormData with time_horizon_months := JSVal.undefined } ≠
        calculateROI { defaultFormData with time_horizon_months := JSVal.num (JSNum.fin 0) } := by
  refine ⟨?_, ?_, ?_, ?_⟩ <;> decide!

/-- The one optional property the code does default: an absent
`one_time_implementation_cost` gives the same outcome as one supplied as `0`. -/
theorem calculateROI_absent_implementation_cost (input : ScenarioInput) :
    calculateROI { input with one_time_implementation_cost := JSVal.undefined } =
      calculateROI { input with one_time_implementation_cost := JSVal.num (JSNum.fin 0) } := by
  simp [calculateROI, calculateROIWith, missingRequired, computeLocals, JSVal.or, JSVal.truthy]

/-! ## The computed figures -/

theorem requiredFields_of_valid {input : ScenarioInput} (h : validInput input = true) :
    (requiredFields input).all JSVal.isPositive = true := by
  simp only [validInput, Bool.and_eq_true] at h
  exact h.1

theorem calculateROI_of_valid {input : ScenarioInput} (h : validInput input = true) :
    calculateROI input = Except.ok (buildResult (computeLocals CONSTANTS input)) := by
  rw [calculateROI, calculateROIWith_ok_iff]
  exact ⟨missingRequired_of_valid (requiredFields_of_valid h), rfl⟩

theorem toNumber_or_zero {v : JSVal} (h : v.isNumber = true)
    (hz : v ≠ JSVal.num JSNum.negZero) :
    (JSVal.or v (JSVal.num (JSNum.fin 0))).toNumber = v.toNumber := by
  rcases v with _ | x
  · simp [JSVal.isNumber] at h
  · rcases x with _ | _ | _ | _ | q
    · simp [JSVal.isNumber] at h
    · rfl
    · rfl
    · exact absurd rfl hz
    · by_cases hq : q = 0
      · simp [JSVal.or, JSVal.truthy, JSVal.toNumber, hq]
      · simp [JSVal.or, JSVal.truthy, JSVal.toNumber, hq]

theorem implementationCost_of_valid {input : ScenarioInput} (h : validInput input = true)
    (hz : input.one_time_implementation_cost ≠ JSVal.num JSNum.negZero) :
    (computeLocals CONSTANTS input).implementationCost =
      input.one_time_implementation_cost.toNumber := by
  simp only [validInput, optionalFields, List.all_cons, List.all_nil, Bool.and_true,
    Bool.and_eq_true] at h
  exact toNumber_or_zero h.2.2.2.2 hz

theorem monthlySavings_eq_spec (input : ScenarioInput) :
    (computeLocals CONSTANTS input).monthlySavings = specMonthlySavings input := rfl

theorem sub_zero_eq (x : JSNum) : JSNum.sub x (JSNum.fin 0) = x := by
  rcases x with _ | _ | _ | _ | q
  · rfl
  · simp [JSNum.sub, JSNum.neg, JSNum.add, JSNum.shape, JSNum.infinity]
  · simp [JSNum.sub, JSNum.neg, JSNum.add, JSNum.shape, JSNum.infinity]
  · simp [JSNum.sub, JSNum.neg, JSNum.add, JSNum.shape, JSNum.signed]
  · by_cases hq : q = 0
    · simp [JSNum.sub, JSNum.neg, JSNum.add, JSNum.shape, JSNum.signed, hq]
    · simp [JSNum.sub, JSNum.neg, JSNum.add, JSNum.shape, hq]

theorem toFixed1_zero : JSNum.toFixed1 (JSNum.fin 0) = JSNum.fin 0 := by
  decide!

/-- The function `Math.round` on a finite value gives an integer within one half of it,
the upper one when there are two; the integer zero comes as `+0` or `-0`. -/
theorem round_fin_nearest (q : Rat) :
    ∃ n : Int, (JSNum.round (JSNum.fin q) = JSNum.fin n ∨
        (n = 0 ∧ JSNum.round (JSNum.fin q) = JSNum.negZero)) ∧
      (n : Rat) - 1 / 2 ≤ q ∧ q < (n : Rat) + 1 / 2 := by
  refine ⟨⌊q + 1 / 2⌋, ?_, ?_, ?_⟩
  · by_cases h0 : ⌊q + 1 / 2⌋ = 0
    · have hr : JSNum.round (JSNum.fin q) = JSNum.signed (decide (q < 0)) 0 := if_pos h0
      rw [hr, h0]
      by_cases hq : q < 0
      · right
        simp [JSNum.signed, hq]
      · left
        simp [JSNum.signed, hq]
    · left
      exact if_neg h0
  · linarith [Int.floor_le (q + 1 / 2)]
  · linarith [Int.lt_floor_add_one (q + 1 / 2)]

/-- C4: on every valid input the returned `monthly_savings` is
`round((L + E - A) * 1.1)` with `L`, `E` and `A` the unrounded labour cost, error savings
and automation cost; the factor `1.1` is applied without regard to the sign. -/
theorem monthly_savings_eq_round_spec (input : ScenarioInput) (h : validInput input = true) :
    ∃ r, calculateROI input = Except.ok r ∧
      r.monthly_savings =
        JSNum.round (JSNum.mul
          (JSNum.sub (JSNum.add (specLaborCost input) (specErrorSavings input))
            (specAutoCost input))
          (JSNum.ofRat (11 / 10))) :=
  ⟨_, calculateROI_of_valid h, rfl⟩

/-- The statement C4 at an input where binary rounding decides the outcome: the
unrounded monthly savings is `-27.500000000000004` and `monthly_savings` is `-28`. -/
theorem monthly_savings_eq_round_spec_witness :
    validInput (finiteInput 250 1 (1 / 10) 1 0 0 1 0) = true ∧
      ∃ r, calculateROI (finiteInput 250 1 (1 / 10) 1 0 0 1 0) = Except.ok r ∧
        r.monthly_savings =
          JSNum.round (JSNum.mul
            (JSNum.sub
              (JSNum.add (specLaborCost (finiteInput 250 1 (1 / 10) 1 0 0 1 0))
                (specErrorSavings (finiteInput 250 1 (1 / 10) 1 0 0 1 0)))
              (specAutoCost (finiteInput 250 1 (1 / 10) 1 0 0 1 0)))
            (JSNum.ofRat (11 / 10))) ∧
        r.monthly_savings = JSNum.fin (-28) :=
  ⟨by decide!,
    (monthly_savings_eq_round_spec (finiteInput 250 1 (1 / 10) 1 0 0 1 0) (by decide!)).imp
      fun _ hr => ⟨hr.1, hr.2, hr.2.trans (by decide!)⟩⟩

/-- C5: on every valid input the automation cost before rounding is
`monthly_invoice_volume * 0.20`, and the returned `auto_cost`, `labor_cost_manual` and
`error_savings` are `Math.round` of the unrounded automation cost, labour cost and
error savings. -/
theorem component_outputs_eq_round_spec (input : ScenarioInput)
    (h : validInput input = true) :
    (computeLocals CONSTANTS input).autoCost =
        JSNum.mul input.monthly_invoice_volume.toNumber (JSNum.ofRat (20 / 100)) ∧
      ∃ r, calculateROI input = Except.ok r ∧
        r.auto_cost = JSNum.round (specAutoCost input) ∧
        r.labor_cost_manual = JSNum.round (specLaborCost input) ∧
        r.error_savings = JSNum.round (specErrorSavings input) :=
  ⟨rfl, _, calculateROI_of_valid h, rfl, rfl, rfl⟩

/-- The statement C5 at an input where binary rounding decides the outcome: the
unrounded labour cost is `31.499999999999996` and `labor_cost_manual` is `31`. -/
theorem component_outputs_eq_round_spec_witness :
    validInput (finiteInput 1 3 (7 / 10) 15 (1 / 10) 1 1 50000) = true ∧
      (computeLocals CONSTANTS (finiteInput 1 3 (7 / 10) 15 (1 / 10) 1 1 50000)).autoCost =
        JSNum.mul (finiteInput 1 3 (7 / 10) 15 (1 / 10) 1 1 50000).monthly_invoice_volume.toNumber
          (JSNum.ofRat (20 / 100)) ∧
      ∃ r, calculateROI (finiteInput 1 3 (7 / 10) 15 (1 / 10) 1 1 50000) = Except.ok r ∧
        r.labor_cost_manual =
          JSNum.round (specLaborCost (finiteInput 1 3 (7 / 10) 15 (1 / 10) 1 1 50000)) ∧
        r.labor_cost_manual = JSNum.fin 31 :=
  have h := component_outputs_eq_round_spec (finiteInput 1 3 (7 / 10) 15 (1 / 10) 1 1 50000)
    (by decide!)
  ⟨by decide!, h.1, h.2.imp fun _ hr => ⟨hr.1, hr.2.2.1, hr.2.2.1.trans (by decide!)⟩⟩

/-- C6: when the required properties are positive and `one_time_implementation_cost`
is `0` or absent, `calculateROI` returns `payback_months = 0`, `roi_percentage = 0` and
`net_savings` equal to `cumulative_savings`, whatever the other properties are. -/
theorem no_implementation_cost (input : ScenarioInput)
    (hreq : (requiredFields input).all JSVal.isPositive = true)
    (h0 : input.one_time_implementation_cost = JSVal.undefined ∨
      input.one_time_implementation_cost = JSVal.num (JSNum.fin 0)) :
    ∃ r, calculateROI input = Except.ok r ∧
      r.payback_months = JSNum.fin 0 ∧ r.roi_percentage = JSNum.fin 0 ∧
      r.net_savings = r.cumulative_savings := by
  have himpl : (JSVal.or input.one_time_implementation_cost (JSVal.num (JSNum.fin 0))).toNumber =
      JSNum.fin 0 := by
    rcases h0 with h0 | h0 <;> simp [h0, JSVal.or, JSVal.truthy, JSVal.toNumber]
  have hgt : JSNum.gt (JSNum.fin 0) (JSNum.fin 0) = false := by
    simp [gt_fin_fin]
  refine ⟨buildResult (computeLocals CONSTANTS input), ?_, ?_, ?_, ?_⟩
  · rw [calculateROI, calculateROIWith_ok_iff]
    exact ⟨missingRequired_of_valid hreq, rfl⟩
  · show JSNum.toFixed1 (if JSNum.gt (JSVal.or input.one_time_implementation_cost
        (JSVal.num (JSNum.fin 0))).toNumber (JSNum.fin 0) = true then _ else JSNum.fin 0) = _
    rw [himpl, hgt]
    exact toFixed1_zero
  · show JSNum.toFixed1 (if JSNum.gt (JSVal.or input.one_time_implementation_cost
        (JSVal.num (JSNum.fin 0))).toNumber (JSNum.fin 0) = true then _ else JSNum.fin 0) = _
    rw [himpl, hgt]
    exact toFixed1_zero
  · show JSNum.round (JSNum.sub (computeLocals CONSTANTS input).cumulativeSavings
        (JSVal.or input.one_time_implementation_cost (JSVal.num (JSNum.fin 0))).toNumber) =
      JSNum.round (computeLocals CONSTANTS input).cumulativeSavings
    rw [himpl, sub_zero_eq]

/-- The statement C6 at the default form data with the implementation cost left out. -/
theorem no_implementation_cost_witness :
    (requiredFields noImplementationCostInput).all JSVal.isPositive = true ∧
      ∃ r, calculateROI noImplementationCostInput = Except.ok r ∧
        r.payback_months = JSNum.fin 0 ∧ r.roi_percentage = JSNum.fin 0 ∧
        r.net_savings = r.cumulative_savings :=
  ⟨by decide!, no_implementation_cost noImplementationCostInput (by decide!) (Or.inl rfl)⟩

/-- C7: on the default form data `calculateROI` returns labour cost 30600, automation
cost 400, error savings 800, monthly savings 34100, cumulative savings 1227600, net
savings 1177600, payback 1.5 months and ROI 2355.2 percent. -/
theorem calculateROI_defaultFormData :
    calculateROI defaultFormData = Except.ok defaultResult := by
  decide!

/-- C9: rounding touches the returned values only.  On every valid input, with `M` the
unrounded monthly savings, `H` the time horizon and `C` the implementation cost,
`cumulative_savings = round(M * H)` and `net_savings = round(M * H - C)`, and when
`C > 0`, `payback_months` is `C / M` and `roi_percentage` is `((M * H - C) / C) * 100`,
each rounded to one decimal place.  (An implementation cost of `-0` is read as `+0` by
`|| 0` and is left aside.) -/
theorem outputs_round_unrounded_values (input : ScenarioInput)
    (h : validInput input = true)
    (hz : input.one_time_implementation_cost ≠ JSVal.num JSNum.negZero) :
    ∃ r, calculateROI input = Except.ok r ∧
      r.cumulative_savings =
        JSNum.round (JSNum.mul (specMonthlySavings input) input.time_horizon_months.toNumber) ∧
      r.net_savings =
        JSNum.round (JSNum.sub
          (JSNum.mul (specMonthlySavings input) input.time_horizon_months.toNumber)
          input.one_time_implementation_cost.toNumber) ∧
      (JSNum.gt input.one_time_implementation_cost.toNumber (JSNum.fin 0) = true →
        r.payback_months =
            JSNum.toFixed1 (JSNum.div input.one_time_implementation_cost.toNumber
              (specMonthlySavings input)) ∧
          r.roi_percentage =
            JSNum.toFixed1 (JSNum.mul
              (JSNum.div
                (JSNum.sub
                  (JSNum.mul (specMonthlySavings input) input.time_horizon_months.toNumber)
                  input.one_time_implementation_cost.toNumber)
                input.one_time_implementation_cost.toNumber)
              (JSNum.fin 100))) := by
  have hi := implementationCost_of_valid h hz
  have hnet : (computeLocals CONSTANTS input).netSavings =
      JSNum.sub (JSNum.mul (specMonthlySavings input) input.time_horizon_months.toNumber)
        (computeLocals CONSTANTS input).implementationCost := rfl
  have hpay : (computeLocals CONSTANTS input).paybackMonths =
      if JSNum.gt (computeLocals CONSTANTS input).implementationCost (JSNum.fin 0) then
        JSNum.div (computeLocals CONSTANTS input).implementationCost
          (specMonthlySavings input)
      else JSNum.fin 0 := rfl
  have hroi : (computeLocals CONSTANTS input).roiPercentage =
      if JSNum.gt (computeLocals CONSTANTS input).implementationCost (JSNum.fin 0) then
        JSNum.mul (JSNum.div (computeLocals CONSTANTS input).netSavings
          (computeLocals CONSTANTS input).implementationCost) (JSNum.fin 100)
      else JSNum.fin 0 := rfl
  refine ⟨_, calculateROI_of_valid h, rfl, ?_, ?_⟩
  · show JSNum.round (computeLocals CONSTANTS input).netSavings = _
    rw [hnet, hi]
  · intro hpos
    constructor
    · show JSNum.toFixed1 (computeLocals CONSTANTS input).paybackMonths = _
      rw [hpay, hi, if_pos hpos]
    · show JSNum.toFixed1 (computeLocals CONSTANTS input).roiPercentage = _
      rw [hroi, hnet, hi, if_pos hpos]

/-- The statement C9 at an input whose monthly savings is about `0.88`: the cumulative
savings returned is `round(0.88 * 12) = 11`, not `round(0.88) * 12 = 12`. -/
theorem outputs_round_unrounded_values_witness :
    validInput fractionalSavingsInput = true ∧
      (∃ r, calculateROI fractionalSavingsInput = Except.ok r ∧
        r.cumulative_savings =
          JSNum.round (JSNum.mul (specMonthlySavings fractionalSavingsInput)
            fractionalSavingsInput.time_horizon_months.toNumber) ∧
        r.cumulative_savings = JSNum.fin 11 ∧
        JSNum.mul (JSNum.round (specMonthlySavings fractionalSavingsInput))
          fractionalSavingsInput.time_horizon_months.toNumber = JSNum.fin 12) :=
  ⟨by decide!,
    (outputs_round_unrounded_values fractionalSavingsInput (by decide!) (by decide!)).imp
      fun _ hr => ⟨hr.1, hr.2.1, hr.2.1.trans (by decide!), by decide!⟩⟩

/-! ## Purity -/

/-- C10: the outcome of `calculateROI` is fixed by the eight properties it reads from
its input and by the three constants `AUTOMATED_COST_PER_INVOICE`, `ERROR_RATE_AUTO` and
`MIN_ROI_BOOST_FACTOR`.  Two calls whose inputs agree on the eight properties, made with
constants objects that agree on those three, give the same outcome (the same eight
values, or the same error), whatever else the input objects carry and whatever
`TIME_SAVED_PER_INVOICE` is. -/
theorem calculateROI_pure (c₁ c₂ : Constants) (input₁ input₂ : ScenarioInput)
    (hreq : requiredFields input₁ = requiredFields input₂)
    (hopt : optionalFields input₁ = optionalFields input₂)
    (hA : c₁.AUTOMATED_COST_PER_INVOICE = c₂.AUTOMATED_COST_PER_INVOICE)
    (hE : c₁.ERROR_RATE_AUTO = c₂.ERROR_RATE_AUTO)
    (hB : c₁.MIN_ROI_BOOST_FACTOR = c₂.MIN_ROI_BOOST_FACTOR) :
    calculateROIWith c₁ input₁ = calculateROIWith c₂ input₂ := by
  simp only [requiredFields, List.cons.injEq, and_true] at hreq
  simp only [optionalFields, List.cons.injEq, and_true] at hopt
  obtain ⟨h1, h2, h3, h4⟩ := hreq
  obtain ⟨h5, h6, h7, h8⟩ := hopt
  simp only [calculateROIWith, missingRequired, computeLocals, h1, h2, h3, h4, h5, h6, h7, h8,
    hA, hE, hB]

/-- The statement C10 at the default form data: the same outcome comes from the form
data and from a stored row carrying other properties besides, and from the module's
constants (`0.20`, `0.001`, `1.1`) and a constants object whose fourth entry differs. -/
theorem calculateROI_pure_witness :
    CONSTANTS.AUTOMATED_COST_PER_INVOICE = JSNum.ofRat (20 / 100) ∧
      CONSTANTS.ERROR_RATE_AUTO = JSNum.ofRat (1 / 1000) ∧
      CONSTANTS.MIN_ROI_BOOST_FACTOR = JSNum.ofRat (11 / 10) ∧
      calculateROI defaultFormData =
        calculateROIWith { CONSTANTS with TIME_SAVED_PER_INVOICE := JSNum.fin 5 }
          storedScenario :=
  ⟨rfl, rfl, rfl,
    calculateROI_pure CONSTANTS { CONSTANTS with TIME_SAVED_PER_INVOICE := JSNum.fin 5 }
      defaultFormData storedScenario rfl rfl rfl rfl rfl⟩

/-! ## The bias factor and the sign of the ROI -/

/-- C11, where the code departs from it: on the default form data with a time horizon of
one month, a valid input with a positive implementation cost, the monthly savings is
positive after the factor `1.1`, and yet the returned `roi_percentage` is `-31.8`. -/
theorem roi_percentage_negative_short_horizon :
    validInput shortHorizonInput = true ∧
      JSNum.gt shortHorizonInput.one_time_implementation_cost.toNumber (JSNum.fin 0) = true ∧
      specMonthlySavings shortHorizonInput = JSNum.fin 34100 ∧
      calculateROI shortHorizonInput = Except.ok
        { monthly_savings := JSNum.fin 34100, cumulative_savings := JSNum.fin 34100,
          net_savings := JSNum.fin (-15900), payback_months := JSNum.ofRat (15 / 10),
          roi_percentage := JSNum.ofRat (-318 / 10), labor_cost_manual := JSNum.fin 30600,
          auto_cost := JSNum.fin 400, error_savings := JSNum.fin 800 } := by
  refine ⟨?_, ?_, ?_, ?_⟩ <;> decide!

/-! ## Rounding to binary64 -/

theorem pow2_pos (e : Int) : 0 < JSNum.pow2 e := zpow_pos (by norm_num) e

theorem pow2_le_pow2 {a b : Int} (h : a ≤ b) : JSNum.pow2 a ≤ JSNum.pow2 b :=
  zpow_le_zpow_right₀ (by norm_num) h

theorem pow2_lt_pow2_iff {a b : Int} : JSNum.pow2 a < JSNum.pow2 b ↔ a < b :=
  zpow_lt_zpow_iff_right₀ (by norm_num)

theorem log2Aux_spec (fuel : Nat) : ∀ n : Nat, n ≤ fuel → 0 < n →
    2 ^ JSNum.log2Aux fuel n ≤ n ∧ n < 2 ^ (JSNum.log2Aux fuel n + 1) := by
  induction fuel with
  | zero => intro n h0 hn; omega
  | succ k ih =>
    intro n hle hn
    by_cases h2 : n < 2
    · have h1 : n = 1 := by omega
      subst h1
      simp [JSNum.log2Aux]
    · have hrec : JSNum.log2Aux (k + 1) n = JSNum.log2Aux k (n / 2) + 1 := by
        simp [JSNum.log2Aux, h2]
      obtain ⟨hl, hu⟩ := ih (n / 2) (by omega) (by omega)
      rw [hrec]
      constructor
      · rw [pow_succ]
        omega
      · rw [pow_succ] at hu ⊢
        rw [pow_succ]
        omega

theorem ilog2_spec {n : Nat} (hn : 0 < n) :
    2 ^ JSNum.ilog2 n ≤ n ∧ n < 2 ^ (JSNum.ilog2 n + 1) :=
  log2Aux_spec n n le_rfl hn

theorem pow2_sub_natCast (a b : Nat) :
    JSNum.pow2 ((a : Int) - (b : Int)) = (2 : Rat) ^ a / (2 : Rat) ^ b := by
  rw [JSNum.pow2, zpow_sub₀ (by norm_num), zpow_natCast, zpow_natCast]

theorem binade_bounds {m : Rat} (hm : 0 < m) :
    JSNum.pow2 (JSNum.binade m) ≤ m ∧ m < JSNum.pow2 (JSNum.binade m + 1) := by
  have hnum : 0 < m.num := Rat.num_pos.mpr hm
  have hn : 0 < m.num.natAbs := Int.natAbs_pos.mpr (ne_of_gt hnum)
  have hd : 0 < m.den := m.den_pos
  obtain ⟨hnl, hnu⟩ := ilog2_spec hn
  obtain ⟨hdl, hdu⟩ := ilog2_spec hd
  have hmq : m = (m.num.natAbs : Rat) / (m.den : Rat) := by
    have h1 : ((m.num.natAbs : Int) : Rat) = (m.num : Rat) := by
      rw [Int.natAbs_of_nonneg hnum.le]
    rw [← Int.cast_natCast, h1, Rat.num_div_den]
  have hnl' : (2 : Rat) ^ JSNum.ilog2 m.num.natAbs ≤ (m.num.natAbs : Rat) := by
    exact_mod_cast hnl
  have hnu' : (m.num.natAbs : Rat) < (2 : Rat) ^ (JSNum.ilog2 m.num.natAbs + 1) := by
    exact_mod_cast hnu
  have hdl' : (2 : Rat) ^ JSNum.ilog2 m.den ≤ (m.den : Rat) := by exact_mod_cast hdl
  have hdu' : (m.den : Rat) < (2 : Rat) ^ (JSNum.ilog2 m.den + 1) := by exact_mod_cast hdu
  have hdq : (0 : Rat) < (m.den : Rat) := by exact_mod_cast hd
  have hmd : m * (m.den : Rat) = (m.num.natAbs : Rat) := (eq_div_iff hdq.ne').mp hmq
  have hpn : (0 : Rat) < (2 : Rat) ^ JSNum.ilog2 m.num.natAbs := pow_pos (by norm_num) _
  have hpd : (0 : Rat) < (2 : Rat) ^ JSNum.ilog2 m.den := pow_pos (by norm_num) _
  by_cases hc : JSNum.pow2 ((JSNum.ilog2 m.num.natAbs : Int) - (JSNum.ilog2 m.den : Int)) ≤ m
  · have hb : JSNum.binade m =
        (JSNum.ilog2 m.num.natAbs : Int) - (JSNum.ilog2 m.den : Int) := by
      simp only [JSNum.binade, if_pos hc]
    rw [hb]
    refine ⟨hc, ?_⟩
    have he : (JSNum.ilog2 m.num.natAbs : Int) - (JSNum.ilog2 m.den : Int) + 1 =
        ((JSNum.ilog2 m.num.natAbs + 1 : Nat) : Int) - (JSNum.ilog2 m.den : Int) := by
      push_cast
      ring
    rw [he, pow2_sub_natCast]
    rw [lt_div_iff₀ hpd]
    calc m * 2 ^ JSNum.ilog2 m.den ≤ m * (m.den : Rat) :=
          mul_le_mul_of_nonneg_left hdl' hm.le
      _ = (m.num.natAbs : Rat) := hmd
      _ < _ := hnu'
  · have hb : JSNum.binade m =
        (JSNum.ilog2 m.num.natAbs : Int) - (JSNum.ilog2 m.den : Int) - 1 := by
      simp only [JSNum.binade, if_neg hc]
    rw [hb]
    constructor
    · have he : (JSNum.ilog2 m.num.natAbs : Int) - (JSNum.ilog2 m.den : Int) - 1 =
          ((JSNum.ilog2 m.num.natAbs : Nat) : Int) - ((JSNum.ilog2 m.den + 1 : Nat) : Int) := by
        push_cast
        ring
      rw [he, pow2_sub_natCast]
      rw [div_le_iff₀ (pow_pos (by norm_num) _)]
      calc (2 : Rat) ^ JSNum.ilog2 m.num.natAbs ≤ (m.num.natAbs : Rat) := hnl'
        _ = m * (m.den : Rat) := hmd.symm
        _ ≤ m * 2 ^ (JSNum.ilog2 m.den + 1) := mul_le_mul_of_nonneg_left hdu'.le hm.le
    · rw [sub_add_cancel]
      exact not_le.mp hc

theorem binade_mono {x d : Rat} (hx : 0 < x) (hxd : x ≤ d) :
    JSNum.binade x ≤ JSNum.binade d := by
  have h1 := (binade_bounds hx).1
  have h2 := (binade_bounds (lt_of_lt_of_le hx hxd)).2
  have h3 : JSNum.pow2 (JSNum.binade x) < JSNum.pow2 (JSNum.binade d + 1) :=
    lt_of_le_of_lt (le_trans h1 hxd) h2
  have := pow2_lt_pow2_iff.mp h3
  omega

theorem le_roundHalfEven {y : Rat} {n : Int} (h : (n : Rat) ≤ y) :
    n ≤ JSNum.roundHalfEven y := by
  have hf : n ≤ ⌊y⌋ := Int.le_floor.mpr h
  unfold JSNum.roundHalfEven
  split_ifs <;> omega

theorem roundHalfEven_le {y : Rat} {n : Int} (h : y ≤ (n : Rat)) :
    JSNum.roundHalfEven y ≤ n := by
  rcases eq_or_lt_of_le h with heq | hlt
  · have hf : ⌊y⌋ = n := by rw [heq, Int.floor_intCast]
    have hfr : y - (⌊y⌋ : Rat) < 1 / 2 := by
      rw [hf, heq]
      norm_num
    simp only [JSNum.roundHalfEven, if_pos hfr]
    omega
  · have hf : ⌊y⌋ < n := Int.floor_lt.mpr hlt
    unfold JSNum.roundHalfEven
    split_ifs <;> omega

theorem rne_of_pos {m : Rat} (hm : 0 < m) :
    JSNum.rne m =
      (JSNum.roundHalfEven (m / JSNum.pow2 (JSNum.ulpExp m)) : Rat) *
        JSNum.pow2 (JSNum.ulpExp m) := by
  simp only [JSNum.rne, if_neg (not_le.mpr hm)]

theorem rne_of_nonpos {m : Rat} (hm : m ≤ 0) : JSNum.rne m = 0 := by
  simp only [JSNum.rne, if_pos hm]

theorem rne_nonneg (m : Rat) : 0 ≤ JSNum.rne m := by
  by_cases hm : m ≤ 0
  · rw [rne_of_nonpos hm]
  · have hpos := not_le.mp hm
    rw [rne_of_pos hpos]
    have h0 : (0 : Int) ≤ JSNum.roundHalfEven (m / JSNum.pow2 (JSNum.ulpExp m)) :=
      le_roundHalfEven (by
        simpa using (div_pos hpos (pow2_pos _)).le)
    exact mul_nonneg (by exact_mod_cast h0) (pow2_pos _).le

theorem ulpExp_mono {x d : Rat} (hx : 0 < x) (hxd : x ≤ d) :
    JSNum.ulpExp x ≤ JSNum.ulpExp d := by
  have := binade_mono hx hxd
  simp only [JSNum.ulpExp]
  omega

theorem multiple_of_fixed {d : Rat} (hd : 0 < d) (hfix : JSNum.rne d = d) {e : Int}
    (he : e ≤ JSNum.ulpExp d) : ∃ n : Int, d = (n : Rat) * JSNum.pow2 e := by
  obtain ⟨k, hk⟩ : ∃ k : Nat, JSNum.ulpExp d = e + k :=
    ⟨(JSNum.ulpExp d - e).toNat, by omega⟩
  have h1 := rne_of_pos hd
  rw [hfix] at h1
  have h2 : JSNum.pow2 (JSNum.ulpExp d) = (2 : Rat) ^ k * JSNum.pow2 e := by
    rw [hk, JSNum.pow2, zpow_add₀ (by norm_num), zpow_natCast, JSNum.pow2, mul_comm]
  generalize JSNum.roundHalfEven (d / JSNum.pow2 (JSNum.ulpExp d)) = r at h1
  refine ⟨r * 2 ^ k, ?_⟩
  rw [h1, h2]
  push_cast
  ring

/-- Rounding does not step below a binary64 value: if `d` is one and `d ≤ x`, the
rounded `x` is at least `d`. -/
theorem le_rne_of_le {d x : Rat} (hd : 0 < d) (hfix : JSNum.rne d = d) (hdx : d ≤ x) :
    d ≤ JSNum.rne x := by
  have hx : 0 < x := lt_of_lt_of_le hd hdx
  have hu := pow2_pos (JSNum.ulpExp x)
  rw [rne_of_pos hx]
  by_cases hq : JSNum.ulpExp x ≤ JSNum.ulpExp d
  · obtain ⟨n, hn⟩ := multiple_of_fixed hd hfix hq
    have h1 : (n : Rat) ≤ x / JSNum.pow2 (JSNum.ulpExp x) := by
      rw [le_div_iff₀ hu, ← hn]
      exact hdx
    have h2 : ((n : Int) : Rat) ≤ (JSNum.roundHalfEven (x / JSNum.pow2 (JSNum.ulpExp x)) : Rat) := by
      exact_mod_cast le_roundHalfEven h1
    calc d = (n : Rat) * JSNum.pow2 (JSNum.ulpExp x) := hn
      _ ≤ _ := mul_le_mul_of_nonneg_right h2 hu.le
  · have hq' : JSNum.ulpExp d < JSNum.ulpExp x := not_le.mp hq
    have hb : JSNum.binade d + 1 ≤ JSNum.binade x := by
      simp only [JSNum.ulpExp] at hq'
      omega
    have hux : JSNum.ulpExp x = JSNum.binade x - 52 := by
      simp only [JSNum.ulpExp] at hq' ⊢
      omega
    have hbx : JSNum.pow2 (JSNum.binade x) =
        ((2 ^ 52 : Int) : Rat) * JSNum.pow2 (JSNum.ulpExp x) := by
      rw [hux, JSNum.pow2, JSNum.pow2]
      have : JSNum.binade x = (52 : Int) + (JSNum.binade x - 52) := by ring
      conv_lhs => rw [this, zpow_add₀ (by norm_num : (2 : Rat) ≠ 0)]
      norm_num
    have h1 : ((2 ^ 52 : Int) : Rat) ≤ x / JSNum.pow2 (JSNum.ulpExp x) := by
      rw [le_div_iff₀ hu, ← hbx]
      exact (binade_bounds hx).1
    have h2 : (((2 ^ 52 : Int) : Int) : Rat) ≤
        (JSNum.roundHalfEven (x / JSNum.pow2 (JSNum.ulpExp x)) : Rat) := by
      exact_mod_cast le_roundHalfEven h1
    calc d ≤ JSNum.pow2 (JSNum.binade d + 1) := (binade_bounds hd).2.le
      _ ≤ JSNum.pow2 (JSNum.binade x) := pow2_le_pow2 hb
      _ = ((2 ^ 52 : Int) : Rat) * JSNum.pow2 (JSNum.ulpExp x) := hbx
      _ ≤ _ := mul_le_mul_of_nonneg_right h2 hu.le

/-- Rounding does not step above a binary64 value: if `d` is one and `x ≤ d`, the
rounded `x` is at most `d`. -/
theorem rne_le_of_le {d x : Rat} (hfix : JSNum.rne d = d) (hxd : x ≤ d) :
    JSNum.rne x ≤ d := by
  by_cases hx : x ≤ 0
  · rw [rne_of_nonpos hx, ← hfix]
    exact rne_nonneg d
  · have hx' := not_le.mp hx
    have hd : 0 < d := lt_of_lt_of_le hx' hxd
    have hu := pow2_pos (JSNum.ulpExp x)
    obtain ⟨n, hn⟩ := multiple_of_fixed hd hfix (ulpExp_mono hx' hxd)
    have h1 : x / JSNum.pow2 (JSNum.ulpExp x) ≤ (n : Rat) := by
      rw [div_le_iff₀ hu, ← hn]
      exact hxd
    have h2 : (JSNum.roundHalfEven (x / JSNum.pow2 (JSNum.ulpExp x)) : Rat) ≤ ((n : Int) : Rat) := by
      exact_mod_cast roundHalfEven_le h1
    rw [rne_of_pos hx']
    calc _ ≤ (n : Rat) * JSNum.pow2 (JSNum.ulpExp x) := mul_le_mul_of_nonneg_right h2 hu.le
      _ = d := hn.symm

/-! ## Signs of computed numbers -/

theorem shape_fin (q : Rat) :
    JSNum.shape (JSNum.fin q) = Shape.finite (decide (q < 0)) |q| := rfl

theorem shape_fin_of_pos {c : Rat} (hc : 0 < c) :
    JSNum.shape (JSNum.fin c) = Shape.finite false c := by
  simp [JSNum.shape, not_lt.mpr hc.le, abs_of_pos hc]

theorem shape_signed (s : Bool) {r : Rat} (hr : 0 ≤ r) :
    JSNum.shape (JSNum.signed s r) = Shape.finite s r := by
  by_cases h0 : r = 0
  · subst h0
    cases s <;> simp [JSNum.signed, JSNum.shape]
  · have hpos : 0 < r := lt_of_le_of_ne hr (Ne.symm h0)
    cases s
    · simp [JSNum.signed, JSNum.shape, h0, not_lt.mpr hr, abs_of_pos hpos]
    · simp [JSNum.signed, JSNum.shape, h0, hpos, abs_of_pos hpos]

theorem roundSigned_cases (s : Bool) (m : Rat) :
    JSNum.roundSigned s m = JSNum.infinity s ∨
      (JSNum.rne m < JSNum.pow2 1024 ∧
        JSNum.roundSigned s m = JSNum.signed s (JSNum.rne m)) := by
  by_cases h : JSNum.pow2 1024 ≤ JSNum.rne m
  · left
    simp only [JSNum.roundSigned, if_pos h]
  · right
    exact ⟨not_le.mp h, by simp only [JSNum.roundSigned, if_neg h]⟩

theorem shape_infinity (s : Bool) : JSNum.shape (JSNum.infinity s) = Shape.inf s := by
  cases s <;> rfl

theorem shape_roundSigned (s : Bool) (m : Rat) :
    JSNum.shape (JSNum.roundSigned s m) = Shape.inf s ∨
      (JSNum.rne m < JSNum.pow2 1024 ∧
        JSNum.shape (JSNum.roundSigned s m) = Shape.finite s (JSNum.rne m)) := by
  rcases roundSigned_cases s m with h | ⟨h1, h2⟩
  · left
    rw [h, shape_infinity]
  · right
    exact ⟨h1, by rw [h2, shape_signed s (rne_nonneg m)]⟩

theorem gt_roundSigned_true_zero (m : Rat) :
    JSNum.gt (JSNum.roundSigned true m) (JSNum.fin 0) = false := by
  rcases shape_roundSigned true m with h | ⟨-, h⟩
  · simp [JSNum.gt, h, shape_fin]
  · have := rne_nonneg m
    simp only [JSNum.gt, h, shape_fin, JSNum.signedValue, decide_eq_false_iff_not]
    simp
    linarith

theorem le_zero_roundSigned_false (m : Rat) :
    JSNum.le (JSNum.fin 0) (JSNum.roundSigned false m) = true := by
  rcases shape_roundSigned false m with h | ⟨-, h⟩
  · simp [JSNum.le, h, shape_fin]
  · have := rne_nonneg m
    simp [JSNum.le, h, shape_fin, JSNum.signedValue, this]

theorem le_roundSigned_true_zero (m : Rat) :
    JSNum.le (JSNum.roundSigned true m) (JSNum.fin 0) = true := by
  rcases shape_roundSigned true m with h | ⟨-, h⟩
  · simp [JSNum.le, h, shape_fin]
  · have := rne_nonneg m
    simp [JSNum.le, h, shape_fin, JSNum.signedValue, this]

theorem roundSigned_of_nonpos (s : Bool) {m : Rat} (hm : m ≤ 0) :
    JSNum.roundSigned s m = JSNum.signed s 0 := by
  have h : ¬ JSNum.pow2 1024 ≤ (0 : Rat) := not_le.mpr (pow2_pos 1024)
  simp only [JSNum.roundSigned, rne_of_nonpos hm, if_neg h]

theorem le_zero_signed_zero (s : Bool) :
    JSNum.le (JSNum.fin 0) (JSNum.signed s 0) = true ∧
      JSNum.le (JSNum.signed s 0) (JSNum.fin 0) = true := by
  cases s <;> simp [JSNum.signed, JSNum.le, JSNum.shape, JSNum.signedValue]

theorem shape_nan : JSNum.shape JSNum.nan = Shape.nan := rfl

theorem shape_posInf : JSNum.shape JSNum.posInf = Shape.inf false := rfl

theorem shape_negInf : JSNum.shape JSNum.negInf = Shape.inf true := rfl

theorem shape_negZero : JSNum.shape JSNum.negZero = Shape.finite true 0 := rfl

theorem shape_fin_zero : JSNum.shape (JSNum.fin 0) = Shape.finite false 0 := by
  simp [JSNum.shape]

theorem div_fin_pos (q : Rat) {c : Rat} (hc : 0 < c) :
    JSNum.div (JSNum.fin q) (JSNum.fin c) = JSNum.roundSigned (decide (q < 0)) (|q| / c) := by
  simp [JSNum.div, shape_fin, shape_fin_of_pos hc, ne_of_gt hc]

theorem mul_fin_pos (q : Rat) {c : Rat} (hc : 0 < c) :
    JSNum.mul (JSNum.fin q) (JSNum.fin c) = JSNum.roundSigned (decide (q < 0)) (|q| * c) := by
  simp [JSNum.mul, shape_fin, shape_fin_of_pos hc]

theorem pos_mul_fin {m : Rat} (hm : 0 < m) (t : Rat) :
    JSNum.mul (JSNum.fin m) (JSNum.fin t) = JSNum.roundSigned (decide (t < 0)) (m * |t|) := by
  simp [JSNum.mul, shape_fin, shape_fin_of_pos hm]

/-- Dividing by a positive number, or multiplying by one, keeps a number that is not
below zero from falling below zero. -/
theorem le_zero_scale {x : JSNum} {c : Rat} (hc : 0 < c)
    (hx : JSNum.le (JSNum.fin 0) x = true) :
    JSNum.le (JSNum.fin 0) (JSNum.div x (JSNum.fin c)) = true ∧
      JSNum.le (JSNum.fin 0) (JSNum.mul x (JSNum.fin c)) = true := by
  rcases x with _ | _ | _ | _ | q
  · simp [JSNum.le, shape_nan, shape_fin_zero] at hx
  · simp [JSNum.le, JSNum.div, JSNum.mul, shape_posInf, shape_fin_zero, shape_fin_of_pos hc,
      ne_of_gt hc, JSNum.infinity]
  · simp [JSNum.le, shape_negInf, shape_fin_zero] at hx
  · have hd : JSNum.div JSNum.negZero (JSNum.fin c) = JSNum.negZero := by
      simp [JSNum.div, shape_negZero, shape_fin_of_pos hc, ne_of_gt hc,
        roundSigned_of_nonpos true (le_refl (0 : Rat)), JSNum.signed]
    have hm : JSNum.mul JSNum.negZero (JSNum.fin c) = JSNum.negZero := by
      simp [JSNum.mul, shape_negZero, shape_fin_of_pos hc,
        roundSigned_of_nonpos true (le_refl (0 : Rat)), JSNum.signed]
    rw [hd, hm]
    simp [JSNum.le, shape_negZero, shape_fin_zero, JSNum.signedValue]
  · rw [le_fin_fin, decide_eq_true_eq] at hx
    rw [div_fin_pos q hc, mul_fin_pos q hc, decide_eq_false (not_lt.mpr hx)]
    exact ⟨le_zero_roundSigned_false _, le_zero_roundSigned_false _⟩

/-- Dividing by a positive number, or multiplying by one, keeps a number that is not
above zero from rising above zero. -/
theorem scale_le_zero {x : JSNum} {c : Rat} (hc : 0 < c)
    (hx : JSNum.le x (JSNum.fin 0) = true) :
    JSNum.le (JSNum.div x (JSNum.fin c)) (JSNum.fin 0) = true ∧
      JSNum.le (JSNum.mul x (JSNum.fin c)) (JSNum.fin 0) = true := by
  rcases x with _ | _ | _ | _ | q
  · simp [JSNum.le, shape_nan, shape_fin_zero] at hx
  · simp [JSNum.le, shape_posInf, shape_fin_zero] at hx
  · simp [JSNum.le, JSNum.div, JSNum.mul, shape_negInf, shape_fin_zero, shape_fin_of_pos hc,
      ne_of_gt hc, JSNum.infinity]
  · have hd : JSNum.div JSNum.negZero (JSNum.fin c) = JSNum.negZero := by
      simp [JSNum.div, shape_negZero, shape_fin_of_pos hc, ne_of_gt hc,
        roundSigned_of_nonpos true (le_refl (0 : Rat)), JSNum.signed]
    have hm : JSNum.mul JSNum.negZero (JSNum.fin c) = JSNum.negZero := by
      simp [JSNum.mul, shape_negZero, shape_fin_of_pos hc,
        roundSigned_of_nonpos true (le_refl (0 : Rat)), JSNum.signed]
    rw [hd, hm]
    simp [JSNum.le, shape_negZero, shape_fin_zero, JSNum.signedValue]
  · rw [le_fin_fin, decide_eq_true_eq] at hx
    rw [div_fin_pos q hc, mul_fin_pos q hc]
    rcases eq_or_lt_of_le hx with h0 | hneg
    · subst h0
      simp only [abs_zero, zero_div, zero_mul, lt_self_iff_false, decide_False]
      rw [roundSigned_of_nonpos false (le_refl (0 : Rat))]
      exact ⟨(le_zero_signed_zero false).2, (le_zero_signed_zero false).2⟩
    · rw [decide_eq_true hneg]
      exact ⟨le_roundSigned_true_zero _, le_roundSigned_true_zero _⟩

theorem sub_fin_eq (x : JSNum) {c : Rat} (hc : 0 < c) :
    JSNum.sub x (JSNum.fin c) = JSNum.add x (JSNum.fin (-c)) := by
  simp [JSNum.sub, JSNum.neg, ne_of_gt hc]

theorem shape_fin_neg {c : Rat} (hc : 0 < c) :
    JSNum.shape (JSNum.fin (-c)) = Shape.finite true c := by
  simp [JSNum.shape, hc, abs_of_pos hc]

/-- Taking away a positive `c` from a number that is at least `c` leaves a number that is
not below zero. -/
theorem le_zero_sub {x : JSNum} {c : Rat} (hc : 0 < c)
    (hx : JSNum.le (JSNum.fin c) x = true) :
    JSNum.le (JSNum.fin 0) (JSNum.sub x (JSNum.fin c)) = true := by
  rw [sub_fin_eq x hc]
  rcases x with _ | _ | _ | _ | q
  · simp [JSNum.le, shape_nan, shape_fin_of_pos hc] at hx
  · simp [JSNum.le, JSNum.add, shape_posInf, shape_fin_zero, shape_fin_neg hc, JSNum.infinity]
  · simp [JSNum.le, shape_negInf, shape_fin_of_pos hc] at hx
  · simp [JSNum.le, shape_negZero, shape_fin_of_pos hc, JSNum.signedValue] at hx
    linarith
  · rw [le_fin_fin, decide_eq_true_eq] at hx
    have hq : 0 < q := lt_of_lt_of_le hc hx
    have hadd : JSNum.add (JSNum.fin q) (JSNum.fin (-c)) =
        if q + -c = 0 then JSNum.fin 0
        else JSNum.roundSigned (decide (q + -c < 0)) |q + -c| := by
      simp [JSNum.add, shape_fin_of_pos hq, shape_fin_neg hc, ne_of_gt hq, ne_of_gt hc,
        JSNum.signedValue]
    rw [hadd]
    split_ifs with h0
    · simp [le_fin_fin]
    · rw [decide_eq_false (by linarith)]
      exact le_zero_roundSigned_false _

/-- Taking away a positive `c` from a number that is at most `c` leaves a number that is
not above zero. -/
theorem sub_le_zero {x : JSNum} {c : Rat} (hc : 0 < c)
    (hx : JSNum.le x (JSNum.fin c) = true) :
    JSNum.le (JSNum.sub x (JSNum.fin c)) (JSNum.fin 0) = true := by
  rw [sub_fin_eq x hc]
  rcases x with _ | _ | _ | _ | q
  · simp [JSNum.le, shape_nan, shape_fin_of_pos hc] at hx
  · simp [JSNum.le, shape_posInf, shape_fin_of_pos hc] at hx
  · simp [JSNum.le, JSNum.add, shape_negInf, shape_fin_zero, shape_fin_neg hc, JSNum.infinity]
  · have hadd : JSNum.add JSNum.negZero (JSNum.fin (-c)) = JSNum.fin (-c) := by
      simp [JSNum.add, shape_negZero, shape_fin_neg hc, ne_of_gt hc]
    rw [hadd, le_fin_fin]
    simp [hc.le]
  · rw [le_fin_fin, decide_eq_true_eq] at hx
    by_cases hq0 : q = 0
    · subst hq0
      have hadd : JSNum.add (JSNum.fin 0) (JSNum.fin (-c)) = JSNum.fin (-c) := by
        simp [JSNum.add, shape_fin_zero, shape_fin_neg hc, ne_of_gt hc]
      rw [hadd, le_fin_fin]
      simp [hc.le]
    · have hadd : JSNum.add (JSNum.fin q) (JSNum.fin (-c)) =
          if q + -c = 0 then JSNum.fin 0
          else JSNum.roundSigned (decide (q + -c < 0)) |q + -c| := by
        have hv : (if q < 0 then -|q| else |q|) = q := by
          simpa [JSNum.signedValue] using signedValue_shape q
        simp [JSNum.add, shape_fin, shape_fin_neg hc, hq0, ne_of_gt hc, JSNum.signedValue, hv]
      rw [hadd]
      split_ifs with h0
      · simp [le_fin_fin]
      · have hlt : q + -c < 0 := lt_of_le_of_ne (by linarith) h0
        rw [decide_eq_true hlt]
        exact le_roundSigned_true_zero _


/-! ## Payback and ROI -/

theorem le_fin_mul_of_le {c m t : Rat} (hc : 0 < c) (hm : 0 < m)
    (hfix : JSNum.rne c = c) (h : c ≤ m * t) :
    JSNum.le (JSNum.fin c) (JSNum.mul (JSNum.fin m) (JSNum.fin t)) = true := by
  have ht : 0 < t := by
    by_contra hcon
    have : m * t ≤ 0 := mul_nonpos_of_nonneg_of_nonpos hm.le (not_lt.mp hcon)
    linarith
  rw [pos_mul_fin hm, decide_eq_false (not_lt.mpr ht.le), abs_of_pos ht]
  rcases shape_roundSigned false (m * t) with hs | ⟨-, hs⟩
  · simp [JSNum.le, hs, shape_fin_of_pos hc]
  · have := le_rne_of_le hc hfix h
    simp [JSNum.le, hs, shape_fin_of_pos hc, JSNum.signedValue, this]

theorem mul_le_fin_of_le {c m t : Rat} (hc : 0 < c) (hm : 0 < m)
    (hfix : JSNum.rne c = c) (hbig : c < JSNum.pow2 1024) (h : m * t ≤ c) :
    JSNum.le (JSNum.mul (JSNum.fin m) (JSNum.fin t)) (JSNum.fin c) = true := by
  rw [pos_mul_fin hm]
  by_cases ht : t < 0
  · rw [decide_eq_true ht]
    rcases shape_roundSigned true (m * |t|) with hs | ⟨-, hs⟩
    · simp [JSNum.le, hs, shape_fin_of_pos hc]
    · have := rne_nonneg (m * |t|)
      simp only [JSNum.le, hs, shape_fin_of_pos hc, JSNum.signedValue, decide_eq_true_eq]
      simp
      linarith
  · have ht' : 0 ≤ t := not_lt.mp ht
    rw [decide_eq_false ht, abs_of_nonneg ht']
    have hr := rne_le_of_le hfix h
    rcases shape_roundSigned false (m * t) with hs | ⟨-, hs⟩
    · exfalso
      have hinf : JSNum.roundSigned false (m * t) = JSNum.posInf := by
        rcases roundSigned_cases false (m * t) with h1 | ⟨h1, h2⟩
        · exact h1
        · rw [h2, shape_signed false (rne_nonneg _)] at hs
          cases hs
      have : JSNum.pow2 1024 ≤ JSNum.rne (m * t) := by
        by_contra hcon
        simp only [JSNum.roundSigned, if_neg hcon, JSNum.signed] at hinf
        split_ifs at hinf
      linarith
    · simp [JSNum.le, hs, shape_fin_of_pos hc, JSNum.signedValue, hr]

theorem payback_lt_horizon {c m t : Rat} (hc : 0 < c) (hm : 0 < m)
    (htfix : JSNum.rne |t| = |t|)
    (h : JSNum.gt (JSNum.fin t) (JSNum.div (JSNum.fin c) (JSNum.fin m)) = true) :
    c ≤ m * t := by
  rw [div_fin_pos c hm, decide_eq_false (not_lt.mpr hc.le), abs_of_pos hc] at h
  by_contra hcon
  have hlt : m * t < c := not_le.mp hcon
  rcases shape_roundSigned false (c / m) with hs | ⟨-, hs⟩
  · simp [JSNum.gt, hs, shape_fin] at h
  · have hv : (if t < 0 then -|t| else |t|) = t := by
      simpa [JSNum.signedValue] using signedValue_shape t
    simp only [JSNum.gt, hs, shape_fin, JSNum.signedValue, decide_eq_true_eq] at h
    simp only [Bool.false_eq_true, if_false, hv] at h
    by_cases ht : 0 < t
    · rw [abs_of_pos ht] at htfix
      have h1 : t ≤ c / m := by
        rw [le_div_iff₀ hm]
        linarith
      have := le_rne_of_le ht htfix h1
      linarith
    · have := rne_nonneg (c / m)
      linarith

theorem payback_gt_horizon {c m t : Rat} (hc : 0 < c) (hm : 0 < m)
    (htfix : JSNum.rne |t| = |t|) (htbig : |t| < JSNum.pow2 1024)
    (h : JSNum.gt (JSNum.div (JSNum.fin c) (JSNum.fin m)) (JSNum.fin t) = true) :
    m * t ≤ c := by
  rw [div_fin_pos c hm, decide_eq_false (not_lt.mpr hc.le), abs_of_pos hc] at h
  by_contra hcon
  have hlt : c < m * t := not_le.mp hcon
  have ht : 0 < t := by
    by_contra hcon'
    have : m * t ≤ 0 := mul_nonpos_of_nonneg_of_nonpos hm.le (not_lt.mp hcon')
    linarith
  rw [abs_of_pos ht] at htfix htbig
  have h1 : c / m ≤ t := by
    rw [div_le_iff₀ hm]
    linarith
  have hr := rne_le_of_le htfix h1
  rcases shape_roundSigned false (c / m) with hs | ⟨-, hs⟩
  · have hinf : JSNum.pow2 1024 ≤ JSNum.rne (c / m) := by
      by_contra hcon'
      have h2 : JSNum.roundSigned false (c / m) = JSNum.signed false (JSNum.rne (c / m)) := by
        simp only [JSNum.roundSigned, if_neg hcon']
      rw [h2, shape_signed false (rne_nonneg _)] at hs
      cases hs
    linarith
  · have hv : (if t < 0 then -|t| else |t|) = t := by
      simpa [JSNum.signedValue] using signedValue_shape t
    simp only [JSNum.gt, hs, shape_fin, JSNum.signedValue, decide_eq_true_eq] at h
    simp only [Bool.false_eq_true, if_false, hv] at h
    linarith

theorem zero_gt_roundSigned_true (m : Rat) :
    JSNum.gt (JSNum.fin 0) (JSNum.roundSigned true m) = true ↔ 0 < JSNum.rne m := by
  rcases shape_roundSigned true m with hs | ⟨hlt, hs⟩
  · have hbig : JSNum.pow2 1024 ≤ JSNum.rne m := by
      by_contra hcon
      have h2 : JSNum.roundSigned true m = JSNum.signed true (JSNum.rne m) := by
        simp only [JSNum.roundSigned, if_neg hcon]
      rw [h2, shape_signed true (rne_nonneg _)] at hs
      cases hs
    have := pow2_pos 1024
    simp only [JSNum.gt, hs, shape_fin_zero, true_iff]
    linarith
  · simp [JSNum.gt, hs, shape_fin_zero, JSNum.signedValue]

theorem rne_tenths_pos_iff (n : Int) : 0 < JSNum.rne ((n : Rat) / 10) ↔ 1 ≤ n := by
  constructor
  · intro h
    by_contra hcon
    have hn : (n : Rat) ≤ 0 := by exact_mod_cast (by omega : n ≤ 0)
    rw [rne_of_nonpos (by linarith)] at h
    exact lt_irrefl _ h
  · intro h
    have hn : (1 : Rat) ≤ (n : Rat) := by exact_mod_cast h
    have hfix : JSNum.rne (1 / 16) = 1 / 16 := by decide!
    have := le_rne_of_le (by norm_num) hfix (by linarith : (1 / 16 : Rat) ≤ (n : Rat) / 10)
    linarith

/-- The expression `parseFloat(x.toFixed(1))` on a number that is not above zero: the
result is not above zero either, and it is below zero exactly when `x ≤ -0.05`. -/
theorem toFixed1_sign {x : JSNum} (hx : JSNum.gt x (JSNum.fin 0) = false) :
    JSNum.gt (JSNum.toFixed1 x) (JSNum.fin 0) = false ∧
      (JSNum.gt (JSNum.fin 0) (JSNum.toFixed1 x) = true ↔
        JSNum.le x (JSNum.fin (-(1 / 20))) = true) := by
  rcases x with _ | _ | _ | _ | q
  · decide!
  · simp [JSNum.gt, shape_posInf, shape_fin_zero] at hx
  · decide!
  · decide!
  · rw [gt_fin_fin, decide_eq_false_iff_not, not_lt] at hx
    rw [le_fin_fin, decide_eq_true_eq]
    by_cases hbig : (10 : Rat) ^ 21 ≤ |q|
    · have ht : JSNum.toFixed1 (JSNum.fin q) = JSNum.fin q := by
        simp only [JSNum.toFixed1, if_pos hbig]
      have hq : q < 0 := by
        rcases eq_or_lt_of_le hx with h0 | h0
        · rw [h0, abs_zero] at hbig
          norm_num at hbig
        · exact h0
      rw [ht, gt_fin_fin, gt_fin_fin]
      rw [abs_of_neg hq] at hbig
      refine ⟨by simp [hx], ?_⟩
      simp only [decide_eq_true_eq, hq, true_iff]
      linarith [show (1 : Rat) ≤ 10 ^ 21 by norm_num]
    · have ht : JSNum.toFixed1 (JSNum.fin q) =
          JSNum.roundSigned (decide (q < 0)) (((⌊|q| * 10 + 1 / 2⌋ : Int) : Rat) / 10) := by
        simp only [JSNum.toFixed1, if_neg hbig]
      rw [ht]
      rcases eq_or_lt_of_le hx with h0 | hq
      · subst h0
        have hz : JSNum.roundSigned (decide ((0 : Rat) < 0))
            (((⌊|(0 : Rat)| * 10 + 1 / 2⌋ : Int) : Rat) / 10) = JSNum.fin 0 := by
          decide!
        rw [hz, gt_fin_fin]
        norm_num
      · rw [decide_eq_true hq]
        refine ⟨gt_roundSigned_true_zero _, ?_⟩
        rw [zero_gt_roundSigned_true, rne_tenths_pos_iff, Int.le_floor, abs_of_neg hq]
        push_cast
        constructor <;> intro h <;> linarith

theorem div_pos_neg_not_pos {x y : JSNum} (hx : JSNum.gt x (JSNum.fin 0) = true)
    (hy : JSNum.gt (JSNum.fin 0) y = true) :
    JSNum.gt (JSNum.div x y) (JSNum.fin 0) = false := by
  rcases x with _ | _ | _ | _ | c
  · simp [JSNum.gt, shape_nan] at hx
  · rcases y with _ | _ | _ | _ | m
    · simp [JSNum.gt, shape_nan, shape_fin_zero] at hy
    · simp [JSNum.gt, shape_posInf, shape_fin_zero] at hy
    · simp [JSNum.div, JSNum.gt, shape_posInf, shape_negInf, shape_nan]
    · simp [JSNum.gt, shape_negZero, shape_fin_zero, JSNum.signedValue] at hy
    · rw [gt_fin_fin, decide_eq_true_eq] at hy
      simp [JSNum.div, JSNum.gt, shape_posInf, shape_fin, hy, JSNum.infinity, shape_negInf,
        shape_fin_zero]
  · simp [JSNum.gt, shape_negInf, shape_fin_zero] at hx
  · simp [JSNum.gt, shape_negZero, shape_fin_zero, JSNum.signedValue] at hx
  · rw [gt_fin_fin, decide_eq_true_eq] at hx
    rcases y with _ | _ | _ | _ | m
    · simp [JSNum.gt, shape_nan, shape_fin_zero] at hy
    · simp [JSNum.gt, shape_posInf, shape_fin_zero] at hy
    · simp [JSNum.div, JSNum.gt, shape_fin_of_pos hx, shape_negInf, JSNum.signed,
        shape_negZero, shape_fin_zero, JSNum.signedValue]
    · simp [JSNum.gt, shape_negZero, shape_fin_zero, JSNum.signedValue] at hy
    · rw [gt_fin_fin, decide_eq_true_eq] at hy
      have hd : JSNum.div (JSNum.fin c) (JSNum.fin m) = JSNum.roundSigned true (c / |m|) := by
        simp [JSNum.div, shape_fin_of_pos hx, shape_fin, hy, ne_of_lt hy]
      rw [hd]
      exact gt_roundSigned_true_zero _

/-- C8, refuted: monthly savings is negative (`-352`) and the implementation cost is
positive (`10`), yet the returned `payback_months` is `-0`, which is not below zero:
the quotient `10 / -352` is about `-0.028` and `toFixed(1)` prints it as `-0.0`. -/
theorem payback_months_zero_of_negative_savings :
    validInput smallPaybackInput = true ∧
      specMonthlySavings smallPaybackInput = JSNum.fin (-352) ∧
      smallPaybackInput.one_time_implementation_cost = JSVal.num (JSNum.fin 10) ∧
      calculateROI smallPaybackInput = Except.ok
        { monthly_savings := JSNum.fin (-352), cumulative_savings := JSNum.fin (-4224),
          net_savings := JSNum.fin (-4234), payback_months := JSNum.negZero,
          roi_percentage := JSNum.fin (-42340), labor_cost_manual := JSNum.fin 200,
          auto_cost := JSNum.fin 20, error_savings := JSNum.fin (-500) } ∧
      JSNum.gt (JSNum.fin 0) JSNum.negZero = false := by
  refine ⟨?_, ?_, ?_, ?_, ?_⟩ <;> decide!

/-- C8, amended: on a valid input with implementation cost `C > 0` and unrounded monthly
savings `M < 0`, the returned `payback_months` is the quotient `C / M` put through
`toFixed(1)`, with no clamping and no other guard; it is never above zero, and it is
below zero exactly when the quotient is at most `-0.05` (a quotient nearer to zero
comes back as zero). -/
theorem payback_months_of_negative_savings (input : ScenarioInput)
    (hv : validInput input = true)
    (hc : JSNum.gt input.one_time_implementation_cost.toNumber (JSNum.fin 0) = true)
    (hm : JSNum.gt (JSNum.fin 0) (specMonthlySavings input) = true) :
    ∃ r, calculateROI input = Except.ok r ∧
      r.payback_months =
        JSNum.toFixed1 (JSNum.div input.one_time_implementation_cost.toNumber
          (specMonthlySavings input)) ∧
      JSNum.gt r.payback_months (JSNum.fin 0) = false ∧
      (JSNum.gt (JSNum.fin 0) r.payback_months = true ↔
        JSNum.le (JSNum.div input.one_time_implementation_cost.toNumber
          (specMonthlySavings input)) (JSNum.fin (-(1 / 20))) = true) := by
  have hz : input.one_time_implementation_cost ≠ JSVal.num JSNum.negZero := by
    intro h
    rw [h] at hc
    simp [JSVal.toNumber, JSNum.gt, shape_negZero, shape_fin_zero, JSNum.signedValue] at hc
  have hi := implementationCost_of_valid hv hz
  have hpay : (buildResult (computeLocals CONSTANTS input)).payback_months =
      JSNum.toFixed1 (JSNum.div input.one_time_implementation_cost.toNumber
        (specMonthlySavings input)) := by
    show JSNum.toFixed1 (computeLocals CONSTANTS input).paybackMonths = _
    have : (computeLocals CONSTANTS input).paybackMonths =
        if JSNum.gt (computeLocals CONSTANTS input).implementationCost (JSNum.fin 0) then
          JSNum.div (computeLocals CONSTANTS input).implementationCost
            (specMonthlySavings input)
        else JSNum.fin 0 := rfl
    rw [this, hi, if_pos hc]
  obtain ⟨h1, h2⟩ := toFixed1_sign (div_pos_neg_not_pos hc hm)
  refine ⟨_, calculateROI_of_valid hv, hpay, ?_, ?_⟩
  · rw [hpay]
    exact h1
  · rw [hpay]
    exact h2

/-- The amended statement C8 at an input whose payback comes back as zero. -/
theorem payback_months_of_negative_savings_witness :
    validInput smallPaybackInput = true ∧
      ∃ r, calculateROI smallPaybackInput = Except.ok r ∧
        r.payback_months =
          JSNum.toFixed1 (JSNum.div smallPaybackInput.one_time_implementation_cost.toNumber
            (specMonthlySavings smallPaybackInput)) ∧
        JSNum.gt r.payback_months (JSNum.fin 0) = false ∧
        (JSNum.gt (JSNum.fin 0) r.payback_months = true ↔
          JSNum.le (JSNum.div smallPaybackInput.one_time_implementation_cost.toNumber
            (specMonthlySavings smallPaybackInput)) (JSNum.fin (-(1 / 20))) = true) :=
  ⟨by decide!,
    payback_months_of_negative_savings smallPaybackInput (by decide!) (by decide!)
      (by decide!)⟩

/-! ## Payback against ROI -/

theorem locals_of_finite {input : ScenarioInput} {c m t : Rat} (hv : validInput input = true)
    (hc : input.one_time_implementation_cost = JSVal.num (JSNum.fin c))
    (hm : specMonthlySavings input = JSNum.fin m)
    (ht : input.time_horizon_months = JSVal.num (JSNum.fin t)) (hc0 : 0 < c) :
    (computeLocals CONSTANTS input).paybackMonths = JSNum.div (JSNum.fin c) (JSNum.fin m) ∧
      (computeLocals CONSTANTS input).netSavings =
        JSNum.sub (JSNum.mul (JSNum.fin m) (JSNum.fin t)) (JSNum.fin c) ∧
      (computeLocals CONSTANTS input).roiPercentage =
        JSNum.mul (JSNum.div (computeLocals CONSTANTS input).netSavings (JSNum.fin c))
          (JSNum.fin 100) := by
  have hz : input.one_time_implementation_cost ≠ JSVal.num JSNum.negZero := by
    rw [hc]
    intro h
    cases h
  have hi := implementationCost_of_valid hv hz
  have hs := monthlySavings_eq_spec input
  rw [hc] at hi
  rw [hm] at hs
  simp only [JSVal.toNumber] at hi
  have hgt : JSNum.gt (JSNum.fin c) (JSNum.fin 0) = true := by
    rw [gt_fin_fin]
    exact decide_eq_true hc0
  have hcum : (computeLocals CONSTANTS input).cumulativeSavings =
      JSNum.mul (computeLocals CONSTANTS input).monthlySavings
        input.time_horizon_months.toNumber := rfl
  have hnet : (computeLocals CONSTANTS input).netSavings =
      JSNum.sub (computeLocals CONSTANTS input).cumulativeSavings
        (computeLocals CONSTANTS input).implementationCost := rfl
  have hpay : (computeLocals CONSTANTS input).paybackMonths =
      if JSNum.gt (computeLocals CONSTANTS input).implementationCost (JSNum.fin 0) then
        JSNum.div (computeLocals CONSTANTS input).implementationCost
          (computeLocals CONSTANTS input).monthlySavings
      else JSNum.fin 0 := rfl
  have hroi : (computeLocals CONSTANTS input).roiPercentage =
      if JSNum.gt (computeLocals CONSTANTS input).implementationCost (JSNum.fin 0) then
        JSNum.mul (JSNum.div (computeLocals CONSTANTS input).netSavings
          (computeLocals CONSTANTS input).implementationCost) (JSNum.fin 100)
      else JSNum.fin 0 := rfl
  refine ⟨?_, ?_, ?_⟩
  · rw [hpay, hi, hs, if_pos hgt]
  · rw [hnet, hcum, hi, hs, ht]
    rfl
  · rw [hroi, hi, if_pos hgt]

/-- C12, refuted: the payback and the ROI, each rounded to binary64 on its own, can
disagree at the boundary.  With horizon `3`, cost `8.91` and monthly savings about
`2.97` the payback is `3.0000000000000004`, above the horizon, while net savings and
ROI are `0`; with cost `7.326` and monthly savings about `2.442` the payback is exactly
`3`, while the ROI is below zero. -/
theorem payback_and_roi_disagree :
    (validInput paybackAboveHorizonInput = true ∧
        JSNum.gt paybackAboveHorizonInput.one_time_implementation_cost.toNumber
          (JSNum.fin 0) = true ∧
        JSNum.gt (specMonthlySavings paybackAboveHorizonInput) (JSNum.fin 0) = true ∧
        paybackAboveHorizonInput.time_horizon_months = JSVal.num (JSNum.fin 3) ∧
        (computeLocals CONSTANTS paybackAboveHorizonInput).paybackMonths =
          JSNum.fin (3 + 1 / 2 ^ 51) ∧
        JSNum.le (computeLocals CONSTANTS paybackAboveHorizonInput).paybackMonths
          (JSNum.fin 3) = false ∧
        (computeLocals CONSTANTS paybackAboveHorizonInput).roiPercentage = JSNum.fin 0 ∧
        JSNum.le (JSNum.fin 0)
          (computeLocals CONSTANTS paybackAboveHorizonInput).roiPercentage = true) ∧
      (validInput negativeRoiInput = true ∧
        JSNum.gt negativeRoiInput.one_time_implementation_cost.toNumber (JSNum.fin 0) = true ∧
        JSNum.gt (specMonthlySavings negativeRoiInput) (JSNum.fin 0) = true ∧
        negativeRoiInput.time_horizon_months = JSVal.num (JSNum.fin 3) ∧
        (computeLocals CONSTANTS negativeRoiInput).paybackMonths = JSNum.fin 3 ∧
        JSNum.le (computeLocals CONSTANTS negativeRoiInput).paybackMonths
          (JSNum.fin 3) = true ∧
        JSNum.le (JSNum.fin 0)
          (computeLocals CONSTANTS negativeRoiInput).roiPercentage = false) := by
  refine ⟨⟨?_, ?_, ?_, ?_, ?_, ?_, ?_, ?_⟩, ⟨?_, ?_, ?_, ?_, ?_, ?_, ?_⟩⟩ <;> decide!

/-- C12, amended: payback and ROI agree away from the boundary.  On a valid input with
implementation cost `c > 0`, unrounded monthly savings `m > 0` and time horizon `t`, `c`
and `t` being binary64 values: if the unrounded payback, as computed, is below the
horizon, the unrounded net savings and ROI are not below zero; if it is above the
horizon, they are not above zero. -/
theorem payback_roi_agree_off_boundary (input : ScenarioInput) (c m t : Rat)
    (hv : validInput input = true)
    (hc : input.one_time_implementation_cost = JSVal.num (JSNum.fin c))
    (hm : specMonthlySavings input = JSNum.fin m)
    (ht : input.time_horizon_months = JSVal.num (JSNum.fin t))
    (hc0 : 0 < c) (hm0 : 0 < m)
    (hcd : (JSNum.fin c).isDouble = true) (htd : (JSNum.fin t).isDouble = true) :
    (JSNum.gt (JSNum.fin t) (computeLocals CONSTANTS input).paybackMonths = true →
        JSNum.le (JSNum.fin 0) (computeLocals CONSTANTS input).netSavings = true ∧
          JSNum.le (JSNum.fin 0) (computeLocals CONSTANTS input).roiPercentage = true) ∧
      (JSNum.gt (computeLocals CONSTANTS input).paybackMonths (JSNum.fin t) = true →
        JSNum.le (computeLocals CONSTANTS input).netSavings (JSNum.fin 0) = true ∧
          JSNum.le (computeLocals CONSTANTS input).roiPercentage (JSNum.fin 0) = true) := by
  obtain ⟨hpay, hnet, hroi⟩ := locals_of_finite hv hc hm ht hc0
  simp only [JSNum.isDouble, decide_eq_true_eq] at hcd htd
  rw [abs_of_pos hc0] at hcd
  have h100 : (0 : Rat) < 100 := by norm_num
  rw [hpay, hroi, hnet]
  constructor
  · intro h
    have hle := payback_lt_horizon hc0 hm0 htd.1 h
    have hn := le_zero_sub hc0 (le_fin_mul_of_le hc0 hm0 hcd.1 hle)
    exact ⟨hn, (le_zero_scale h100 (le_zero_scale hc0 hn).1).2⟩
  · intro h
    have hle := payback_gt_horizon hc0 hm0 htd.1 htd.2 h
    have hn := sub_le_zero hc0 (mul_le_fin_of_le hc0 hm0 hcd.1 hcd.2 hle)
    exact ⟨hn, (scale_le_zero h100 (scale_le_zero hc0 hn).1).2⟩

/-- The amended statement C12 at the default form data: the payback, about `1.47` months,
is below the horizon of `36` months, and net savings and ROI are not below zero. -/
theorem payback_roi_agree_off_boundary_witness :
    validInput defaultFormData = true ∧
      JSNum.gt (JSNum.fin 36) (computeLocals CONSTANTS defaultFormData).paybackMonths = true ∧
      JSNum.le (JSNum.fin 0) (computeLocals CONSTANTS defaultFormData).netSavings = true ∧
      JSNum.le (JSNum.fin 0) (computeLocals CONSTANTS defaultFormData).roiPercentage = true :=
  have h := (payback_roi_agree_off_boundary defaultFormData 50000 34100 36 (by decide!)
    (by decide!) (by decide!) (by decide!) (by norm_num) (by norm_num) (by decide!)
    (by decide!)).1 (by decide!)
  ⟨by decide!, by decide!, h.1, h.2⟩

end ROI
